import Mathlib

/-!
Verification development for the subtracker email subscription-detection
engine.

The repository contains two detection pipelines:

* `src/src/lib/email-parser.ts` — the class `EmailSubscriptionParser`
  (multi-type pipeline, entry point `parseEmail`), embedded below in
  namespace `EmailSubscriptionParser`;
* the module-level legacy parser (`parseSubscriptionEmail` and helpers,
  imported as `../emailParser.js`), embedded in namespace `EmailParserJS`;
* `detectBillingCycle` from `src/src/utils.js`, embedded in namespace
  `UtilsJS`.

Modelling conventions:

* JavaScript numbers that hold money are represented in integer CENTS
  (`Nat`); the source only ever produces amounts of the shape `\d+` or
  `\d+.\d\d`, so this is exact.  The in-range check `0 < amount < 10000`
  (dollars) becomes `0 < cents < 1000000`.
* Confidence scores are represented in integer TENTHS (`Nat`); every
  constant in both scorers (0.5, 0.3, 0.2, 0.1, 1.0) is a multiple of
  0.1, so this is exact.  Theorems that quantify against the spec's
  literal thresholds (0.8, 0.6, the interval [0,1]) also state the
  corresponding fact over `ℚ` via the injection `tenths / 10`.
* `Date` values (timestamps) are represented as `Int` (epoch
  milliseconds); only construction and `<` comparison are used.
* The external `chrono-node` date library is not part of the repository;
  following the spec ("delegates to a natural-language date parser") it
  is abstracted as a parameter `chrono : String → List Int` giving the
  parsed timestamps of a text in document order.  The engine's own use
  of the wall clock (`Date.now()`) is an explicit parameter `now : Int`.
* JavaScript regular expressions are embedded as token sequences
  (`Tok`); each regex of the source is transcribed next to its
  definition.  Case-insensitive (`/i`) matching is modelled by
  comparing lowercased characters.
-/

/-- The set of whitespace characters used to model the JS `\s` class
(and `String.trim`): space, tab, newline, carriage return, vertical
tab, form feed and no-break space. -/
def spaceChars : List Char := [' ', '\t', '\n', '\r', '\x0B', '\x0C', ' ']

def isSpaceC (c : Char) : Bool := spaceChars.contains c

def isDigitC (c : Char) : Bool := '0' ≤ c && c ≤ '9'

def isUpperC (c : Char) : Bool := 'A' ≤ c && c ≤ 'Z'

def isLowerC (c : Char) : Bool := 'a' ≤ c && c ≤ 'z'

/-- ASCII letters and digits, i.e. the `[A-Za-z0-9]` part of the
capture class `[A-Za-z0-9\s]`. -/
def isAlnumC (c : Char) : Bool := isDigitC c || isUpperC c || isLowerC c

/-- Membership in the capture class `[A-Za-z0-9\s]`. -/
def isCapClsC (c : Char) : Bool := isAlnumC c || isSpaceC c

/-- Lower-case an ASCII letter (models `toLowerCase` on the characters
that occur in the engine's patterns). -/
def lcC (c : Char) : Char := if isUpperC c then Char.ofNat (c.toNat + 32) else c

/-- Upper-case an ASCII letter (models `toUpperCase`). -/
def ucC (c : Char) : Char := if isLowerC c then Char.ofNat (c.toNat - 32) else c

def lowerL (s : List Char) : List Char := s.map lcC

/-- Models `capitalize s` models `s.charAt(0).toUpperCase() + s.slice(1)`. -/
def capitalizeL : List Char → List Char
  | [] => []
  | c :: s => ucC c :: s

def dropN : Nat → List Char → List Char
  | 0, s => s
  | _, [] => []
  | n + 1, _ :: s => dropN n s

theorem dropN_length_le (n : Nat) (s : List Char) : (dropN n s).length ≤ s.length := by
  induction n generalizing s with
  | zero => simp [dropN]
  | succ n ih =>
    cases s with
    | nil => simp [dropN]
    | cons c s =>
      have := ih s
      simp only [dropN, List.length_cons]
      omega

/-- All suffixes of a string, longest (the string itself) first. -/
def sufxs : List Char → List (List Char)
  | [] => [[]]
  | c :: s => (c :: s) :: sufxs s

/-- Case-insensitive "starts with": does `s` begin with the literal `w`
(compared through `lcC` on both sides)? -/
def startsWithCI : List Char → List Char → Bool
  | [], _ => true
  | _ :: _, [] => false
  | a :: as, b :: bs => (lcC a == lcC b) && startsWithCI as bs

/-- Case-insensitive substring test (models `/literal/i.test(s)`). -/
def containsCI (w : List Char) (s : List Char) : Bool :=
  (sufxs s).any (startsWithCI w)

/-- Case-SENSITIVE "starts with" (models `String.includes` steps). -/
def startsWithCS : List Char → List Char → Bool
  | [], _ => true
  | _ :: _, [] => false
  | a :: as, b :: bs => (a == b) && startsWithCS as bs

/-- Case-sensitive substring test (models `String.includes`). -/
def containsCS (w : List Char) (s : List Char) : Bool :=
  (sufxs s).any (startsWithCS w)

/-- Length of the maximal run of characters satisfying `p` at the head. -/
def runLen (p : Char → Bool) : List Char → Nat
  | [] => 0
  | c :: s => if p c then runLen p s + 1 else 0

/-- Models `splitChar sep s` models `String.split(sep)` for a single-character
separator. -/
def splitChar (sep : Char) : List Char → List (List Char)
  | [] => [[]]
  | c :: s =>
    if c == sep then [] :: splitChar sep s
    else
      match splitChar sep s with
      | [] => [[c]]
      | t :: ts => (c :: t) :: ts

/-- Models `String.trim`: strip leading and trailing whitespace. -/
def trimL (s : List Char) : List Char :=
  ((s.dropWhile isSpaceC).reverse.dropWhile isSpaceC).reverse

/-- Token alphabet for the embedded regular expressions.  Every star or
plus in the source's patterns is over a class that consumes exactly one
character per iteration, so matching is expressed with run lengths and
never needs general Kleene-star search. -/
inductive Tok where
  /-- a case-insensitive literal -/
  | lit : List Char → Tok
  /-- Models `.*` -/
  | gap : Tok
  /-- Models `.{0,n}` -/
  | gapLe : Nat → Tok
  /-- an optional case-insensitive literal, e.g. `s?` or `(?:ing)?` -/
  | optLit : List Char → Tok
  /-- Models `\d+` -/
  | digits : Tok
  /-- Models `\d{n}` (exactly `n` digits) -/
  | digitsCnt : Nat → Tok
  /-- Models `[..]*` over the character list -/
  | clsStar : List Char → Tok
  /-- Models `[..]?` over the character list -/
  | clsOpt : List Char → Tok
  /-- Models `\s+` -/
  | spPlus : Tok
  deriving Repr

/-- Does the token sequence match a prefix of `s` (with full
backtracking over the bounded quantifiers)? -/
def matchAt : List Tok → List Char → Bool
  | [], _ => true
  | Tok.lit w :: ts, s => startsWithCI w s && matchAt ts (dropN w.length s)
  | Tok.gap :: ts, s => (sufxs s).any (matchAt ts)
  | Tok.gapLe n :: ts, s => ((sufxs s).take (n + 1)).any (matchAt ts)
  | Tok.optLit w :: ts, s =>
      (startsWithCI w s && matchAt ts (dropN w.length s)) || matchAt ts s
  | Tok.digits :: ts, s =>
      let r := runLen isDigitC s
      decide (1 ≤ r) && (List.range r).any (fun j => matchAt ts (dropN (j + 1) s))
  | Tok.digitsCnt n :: ts, s =>
      decide (n ≤ runLen isDigitC s) && matchAt ts (dropN n s)
  | Tok.clsStar cs :: ts, s =>
      let r := runLen (fun c => cs.contains c) s
      (List.range (r + 1)).any (fun j => matchAt ts (dropN j s))
  | Tok.clsOpt cs :: ts, s =>
      (match s with
       | c :: s' => cs.contains c && matchAt ts s'
       | [] => false) || matchAt ts s
  | Tok.spPlus :: ts, s =>
      let r := runLen isSpaceC s
      decide (1 ≤ r) && (List.range r).any (fun j => matchAt ts (dropN (j + 1) s))

/-- A pattern is a disjunction of token sequences (regex alternations
are distributed into separate sequences). -/
def Pattern := List (List Tok)

/-- Models `testPat p s`: does the pattern match anywhere in `s`
(models `RegExp.test`)? -/
def testPat (p : Pattern) (s : List Char) : Bool :=
  p.any (fun a => (sufxs s).any (matchAt a))

/-- Shorthand for a literal token (the string is stored lowercased
by convention at each use site). -/
def tl (s : String) : Tok := Tok.lit s.toList

/-- Shorthand for a one-alternative pattern. -/
def p1 (ts : List Tok) : Pattern := [ts]

example : testPat (p1 [tl "subscription", Tok.gap, tl "renewed"])
    ("Your Netflix subscription has been renewed".toList) = true := by decide

example : testPat (p1 [Tok.digits, Tok.clsStar ['-', ' '], tl "day", Tok.optLit ['s'], Tok.gap, tl "free"])
    ("enjoy 30 days totally free of charge".toList) = true := by decide

example : testPat (p1 [Tok.digits, Tok.clsStar ['-', ' '], tl "day", Tok.optLit ['s'], Tok.gap, tl "free"])
    ("renewed for $15.99/month".toList) = false := by decide

/-- Models `'-'` together with whitespace: the class `[-\s]`. -/
def dashSpace : List Char := '-' :: spaceChars

namespace EmailSubscriptionParser

/-- Models `TRIAL_SIGNUP_PATTERNS` of `email-parser.ts`:
`/welcome.*trial/i, /trial.*started/i, /free.*trial.*activated/i,
/trial.*period.*begins/i, /start.*your.*trial/i,
/trial.*subscription.*created/i, /(\d+)[-\s]*days?.*free/i`. -/
def TRIAL_SIGNUP_PATTERNS : List Pattern :=
  [ p1 [tl "welcome", Tok.gap, tl "trial"],
    p1 [tl "trial", Tok.gap, tl "started"],
    p1 [tl "free", Tok.gap, tl "trial", Tok.gap, tl "activated"],
    p1 [tl "trial", Tok.gap, tl "period", Tok.gap, tl "begins"],
    p1 [tl "start", Tok.gap, tl "your", Tok.gap, tl "trial"],
    p1 [tl "trial", Tok.gap, tl "subscription", Tok.gap, tl "created"],
    p1 [Tok.digits, Tok.clsStar dashSpace, tl "day", Tok.optLit ['s'], Tok.gap, tl "free"] ]

/-- Models `TRIAL_REMINDER_PATTERNS` of `email-parser.ts`:
`/trial.*end(?:s|ing)/i, /trial.*expir(?:es|ing)/i,
/(\d+).*days?.*left.*trial/i, /trial.*will.*end/i,
/subscription.*will.*begin/i, /trial.*period.*ending/i`
(the two-way alternations are distributed). -/
def TRIAL_REMINDER_PATTERNS : List Pattern :=
  [ [[tl "trial", Tok.gap, tl "ends"], [tl "trial", Tok.gap, tl "ending"]],
    [[tl "trial", Tok.gap, tl "expires"], [tl "trial", Tok.gap, tl "expiring"]],
    p1 [Tok.digits, Tok.gap, tl "day", Tok.optLit ['s'], Tok.gap, tl "left", Tok.gap, tl "trial"],
    p1 [tl "trial", Tok.gap, tl "will", Tok.gap, tl "end"],
    p1 [tl "subscription", Tok.gap, tl "will", Tok.gap, tl "begin"],
    p1 [tl "trial", Tok.gap, tl "period", Tok.gap, tl "ending"] ]

/-- Models `BILLING_CONFIRMATION_PATTERNS` of `email-parser.ts`:
`/payment.*successful/i, /subscription.*renewed/i, /billing.*confirmation/i,
/receipt.*for.*subscription/i, /charged.*for.*subscription/i,
/payment.*processed/i, /invoice.*for.*subscription/i`. -/
def BILLING_CONFIRMATION_PATTERNS : List Pattern :=
  [ p1 [tl "payment", Tok.gap, tl "successful"],
    p1 [tl "subscription", Tok.gap, tl "renewed"],
    p1 [tl "billing", Tok.gap, tl "confirmation"],
    p1 [tl "receipt", Tok.gap, tl "for", Tok.gap, tl "subscription"],
    p1 [tl "charged", Tok.gap, tl "for", Tok.gap, tl "subscription"],
    p1 [tl "payment", Tok.gap, tl "processed"],
    p1 [tl "invoice", Tok.gap, tl "for", Tok.gap, tl "subscription"] ]

/-- Models `SUBSCRIPTION_START_PATTERNS` of `email-parser.ts`:
`/subscription.*activated/i, /welcome.*subscriber/i, /subscription.*started/i,
/membership.*activated/i, /account.*upgraded/i, /premium.*activated/i`. -/
def SUBSCRIPTION_START_PATTERNS : List Pattern :=
  [ p1 [tl "subscription", Tok.gap, tl "activated"],
    p1 [tl "welcome", Tok.gap, tl "subscriber"],
    p1 [tl "subscription", Tok.gap, tl "started"],
    p1 [tl "membership", Tok.gap, tl "activated"],
    p1 [tl "account", Tok.gap, tl "upgraded"],
    p1 [tl "premium", Tok.gap, tl "activated"] ]

/-- Models `PRICE_CHANGE_PATTERNS` of `email-parser.ts`:
`/price.*change/i, /pricing.*update/i, /subscription.*cost.*chang/i,
/new.*pricing/i, /rate.*increase/i, /billing.*amount.*chang/i`. -/
def PRICE_CHANGE_PATTERNS : List Pattern :=
  [ p1 [tl "price", Tok.gap, tl "change"],
    p1 [tl "pricing", Tok.gap, tl "update"],
    p1 [tl "subscription", Tok.gap, tl "cost", Tok.gap, tl "chang"],
    p1 [tl "new", Tok.gap, tl "pricing"],
    p1 [tl "rate", Tok.gap, tl "increase"],
    p1 [tl "billing", Tok.gap, tl "amount", Tok.gap, tl "chang"] ]

/-- Models `SPAM_PATTERNS` of `email-parser.ts`:
`/unsubscribe.*here/i, /click.*here.*now/i, /limited.*time.*offer/i,
/act.*now/i, /congratulations.*you.*won/i, /claim.*your.*prize/i`. -/
def SPAM_PATTERNS : List Pattern :=
  [ p1 [tl "unsubscribe", Tok.gap, tl "here"],
    p1 [tl "click", Tok.gap, tl "here", Tok.gap, tl "now"],
    p1 [tl "limited", Tok.gap, tl "time", Tok.gap, tl "offer"],
    p1 [tl "act", Tok.gap, tl "now"],
    p1 [tl "congratulations", Tok.gap, tl "you", Tok.gap, tl "won"],
    p1 [tl "claim", Tok.gap, tl "your", Tok.gap, tl "prize"] ]

/-- Models `COMMON_SUBSCRIPTION_SERVICES` of `email-parser.ts`, in source
order. -/
def COMMON_SUBSCRIPTION_SERVICES : List String :=
  [ "netflix", "spotify", "amazon", "apple", "google", "microsoft", "adobe",
    "dropbox", "slack", "zoom", "salesforce", "hubspot", "mailchimp",
    "canva", "figma", "notion", "airtable", "calendly", "loom", "discord",
    "twitch", "youtube", "hulu", "disney", "hbo", "paramount", "peacock",
    "github", "gitlab", "vercel", "netlify", "heroku", "digitalocean" ]

end EmailSubscriptionParser

def digitVal (c : Char) : Nat := c.toNat - '0'.toNat

def natOfDigits (ds : List Char) : Nat :=
  ds.foldl (fun a c => a * 10 + digitVal c) 0

/-- Parse `\d+(?:\.\d{2})?` at the head of `s` (the `\d+` taken
greedily, as the regex does): returns the value in cents and the number
of characters consumed, or `none` when `s` does not start with a
digit. -/
def decCentsAt (s : List Char) : Option (Nat × Nat) :=
  let r := runLen isDigitC s
  if r = 0 then none else
  let whole := natOfDigits (s.take r)
  match dropN r s with
  | '.' :: d1 :: d2 :: _ =>
    if isDigitC d1 && isDigitC d2 then
      some (whole * 100 + digitVal d1 * 10 + digitVal d2, r + 3)
    else some (whole * 100, r)
  | _ => some (whole * 100, r)

/-- Leftmost-first search driver: apply the position-anchored matcher
`f` at every position of the text, left to right, returning the first
hit (models how a JS regex finds its first match). -/
def firstSome (f : List Char → Option α) (s : List Char) : Option α :=
  (sufxs s).findSome? f

/-- Capture `([A-Za-z0-9\s]+)` at the head when it is the final element
of the regex: the greedy maximal run, `none` when empty. -/
def capRunEnd (s : List Char) : Option (List Char) :=
  let r := runLen isCapClsC s
  if r = 0 then none else some (s.take r)

/-- Capture `([A-Za-z0-9\s]+)` at the head when the literal `post`
(case-insensitive) must follow: greedy, i.e. the longest `k ≥ 1` such
that `post` starts right after the first `k` class characters. -/
def capRunBefore (post : List Char) (s : List Char) : Option (List Char) :=
  let r := runLen isCapClsC s
  (List.range r).findSome? (fun i =>
    let k := r - i
    if startsWithCI post (dropN k s) then some (s.take k) else none)

/-- Models `pre` (case-insensitive literal) followed by a final capture. -/
def capLitEndAt (pre : List Char) (s : List Char) : Option (List Char) :=
  if startsWithCI pre s then capRunEnd (dropN pre.length s) else none

/-- Models `pre` (case-insensitive literal), a capture, then the literal
`post`. -/
def capLitMidAt (pre post : List Char) (s : List Char) : Option (List Char) :=
  if startsWithCI pre s then capRunBefore post (dropN pre.length s) else none

namespace EmailSubscriptionParser

/-- Models `email-parser.ts` detection types (`DetectedSubscription.detectionType`). -/
inductive DetectionType where
  | trial_signup
  | trial_reminder
  | billing_confirmation
  | subscription_start
  | price_change
  deriving DecidableEq, Repr

/-- The `EmailData` input record of `email-parser.ts` (`from`/`to` are
spelt `fromAddr`/`toAddr` because they are Lean keywords; `messageId`
and `headers` are omitted — the engine never reads them). -/
structure EmailData where
  fromAddr : String
  toAddr : String
  subject : String
  bodyText : Option String
  bodyHtml : Option String
  receivedAt : Int
  deriving DecidableEq, Repr

/-- The `DetectedSubscription` output record.  `confidence` is in
tenths, `cost` in cents, dates are epoch milliseconds; `extractedData`
holds the `rawContent` snippet (its only key in the source). -/
structure DetectedSubscription where
  serviceName : String
  detectionType : DetectionType
  confidence : Nat
  cost : Option Nat
  currency : Option String
  billingCycle : Option String
  trialEndDate : Option Int
  nextBillingDate : Option Int
  extractedData : String
  deriving DecidableEq, Repr

/-- Models `getEmailContent`: `subject + ' ' + (bodyText || '') + ' ' + (bodyHtml || '')`. -/
def getEmailContent (e : EmailData) : String :=
  e.subject ++ " " ++ e.bodyText.getD "" ++ " " ++ e.bodyHtml.getD ""

/-- The spam-pattern part of `isSpamEmail`: some `SPAM_PATTERNS` regex
matches the content. -/
def spamPatternMatch (content : List Char) : Bool :=
  SPAM_PATTERNS.any (fun p => testPat p content)

/-- Models `isSpamEmail`: a spam pattern matches, or the sender's domain
(`from.split('@')[1]`, lowercased) contains one of the suspicious
domain fragments `tempmail`, `guerrillamail`, `10minutemail`. -/
def isSpamEmail (content : List Char) (fromAddr : String) : Bool :=
  spamPatternMatch content ||
  (match (splitChar '@' fromAddr.toList).get? 1 with
   | some d =>
     let domain := lowerL d
     ["tempmail", "guerrillamail", "10minutemail"].any
       (fun sus => containsCS sus.toList domain)
   | none => false)

/-- Strip one leading generic prefix from the (lowercased) sender
domain: `replace(/^(mail\.|noreply\.|no-reply\.)/, '')`. -/
def stripGenericPfx (d : List Char) : List Char :=
  if startsWithCS ("mail.".toList) d then dropN 5 d
  else if startsWithCS ("noreply.".toList) d then dropN 8 d
  else if startsWithCS ("no-reply.".toList) d then dropN 9 d
  else d

/-- The four `servicePatterns` of `extractServiceName`, tried in order,
returning the trimmed first capture group:
`/thank you for subscribing to ([A-Za-z0-9\s]+)/i`,
`/welcome to ([A-Za-z0-9\s]+)/i`,
`/your ([A-Za-z0-9\s]+) subscription/i`,
`/([A-Za-z0-9\s]+) membership/i`. -/
def servicePatternCapture (s : List Char) : Option (List Char) :=
  (firstSome (capLitEndAt ("thank you for subscribing to ".toList)) s).orElse (fun _ =>
  (firstSome (capLitEndAt ("welcome to ".toList)) s).orElse (fun _ =>
  (firstSome (capLitMidAt ("your ".toList) (" subscription".toList)) s).orElse (fun _ =>
  firstSome (capRunBefore (" membership".toList)) s)))

/-- Models `extractServiceName`: sender-domain heuristics first (known-service
substring, then the first domain label when longer than 2 characters),
then the body `servicePatterns`.  Returns `none` for the JS `null`;
note the content path can return the empty string (`match[1].trim()`),
which the caller treats as falsy. -/
def extractServiceName (fromAddr : String) (content : List Char) : Option String :=
  let domainPart : Option String :=
    match (splitChar '@' fromAddr.toList).get? 1 with
    | none => none
    | some d0 =>
      let domain := stripGenericPfx (lowerL d0)
      if domain.isEmpty then none
      else
        match COMMON_SUBSCRIPTION_SERVICES.find?
            (fun sv => containsCS sv.toList domain) with
        | some sv => some (String.mk (capitalizeL sv.toList))
        | none =>
          let company := (splitChar '.' domain).headD []
          if company.length > 2 then some (String.mk (capitalizeL company))
          else none
  match domainPart with
  | some s => some s
  | none => (servicePatternCapture content).map (fun cap => String.mk (trimL cap))

/-- Models `extractCurrency` of `email-parser.ts` (case-sensitive
`String.includes` on the matched text). -/
def extractCurrency (text : List Char) : String :=
  if containsCS ['$'] text || containsCS ("USD".toList) text then "USD"
  else if containsCS ['€'] text || containsCS ("EUR".toList) text then "EUR"
  else if containsCS ['£'] text || containsCS ("GBP".toList) text then "GBP"
  else "USD"

/-- Cost pattern 1, `/\$(\d+(?:\.\d{2})?)/`, anchored at a position:
value in cents plus the matched text (`match[0]`). -/
def tsDollarAt (s : List Char) : Option (Nat × List Char) :=
  match s with
  | '$' :: rest => (decCentsAt rest).map (fun r => (r.1, s.take (r.2 + 1)))
  | _ => none

/-- Cost patterns 3 and 4, `/€(\d+(?:\.\d{2})?)/` and
`/£(\d+(?:\.\d{2})?)/`, anchored at a position. -/
def tsSymAt (sym : Char) (s : List Char) : Option (Nat × List Char) :=
  match s with
  | c :: rest =>
    if c == sym then (decCentsAt rest).map (fun r => (r.1, s.take (r.2 + 1)))
    else none
  | [] => none

/-- Cost pattern 2, `/(\d+(?:\.\d{2})?)\s*USD/i`, anchored at a
position.  The `\d+` is taken as the full digit run: a shorter split is
necessarily followed by another digit, on which neither `\.` nor `\s`
nor `USD` can match, so no backtracking over the run length is needed.
The optional `\.\d{2}` is tried first (greedy) and dropped on
failure. -/
def tsNumUsdAt (s : List Char) : Option (Nat × List Char) :=
  let r := runLen isDigitC s
  if r = 0 then none else
  let whole := natOfDigits (s.take r)
  let tryTail : Nat → Nat → Option (Nat × List Char) := fun cents used =>
    let sp := runLen isSpaceC (dropN used s)
    if startsWithCI ("usd".toList) (dropN (used + sp) s) then
      some (cents, s.take (used + sp + 3))
    else none
  (match dropN r s with
   | '.' :: d1 :: d2 :: _ =>
     if isDigitC d1 && isDigitC d2 then
       tryTail (whole * 100 + digitVal d1 * 10 + digitVal d2) (r + 3)
     else none
   | _ => none).orElse (fun _ => tryTail (whole * 100) r)

/-- The cost-extraction loop of `extractSubscriptionData`: the four
`costPatterns` are tried in order, each over the whole content, and the
first pattern that matches anywhere wins (`break`). -/
def firstCostMatch (s : List Char) : Option (Nat × List Char) :=
  (firstSome tsDollarAt s).orElse (fun _ =>
  (firstSome tsNumUsdAt s).orElse (fun _ =>
  (firstSome (tsSymAt '€') s).orElse (fun _ =>
  firstSome (tsSymAt '£') s)))

/-- The billing-cycle loop of `extractSubscriptionData`: `cyclePatterns
= [/monthly/i, /quarterly/i, /annually/i, /yearly/i, /weekly/i]` in
order, first match wins, and the stored value is
`pattern.source.toLowerCase().replace('ly', '')` — i.e. the keyword
with its FIRST `"ly"` removed: `month`, `quarter`, `annual`, `year`,
`week`. -/
def extractBillingCycle (s : List Char) : Option String :=
  if containsCI ("monthly".toList) s then some "month"
  else if containsCI ("quarterly".toList) s then some "quarter"
  else if containsCI ("annually".toList) s then some "annual"
  else if containsCI ("yearly".toList) s then some "year"
  else if containsCI ("weekly".toList) s then some "week"
  else none

end EmailSubscriptionParser

/-- The external `chrono-node` date parser, abstracted (per the spec's
"delegates to a natural-language date parser") as a pure function from
a text to the timestamps parsed from it, in document order. -/
def Chrono := String → List Int

namespace EmailParserJS

/-- Legacy detection-type vocabulary of `emailParser.js`
(`SUBSCRIPTION_PATTERNS` keys plus `'unknown'`). -/
inductive LegacyType where
  | trialStart
  | trialEnd
  | billing
  | cancellation
  | priceChange
  | unknown
  deriving DecidableEq, Repr

/-- The duck-typed email object consumed by `parseSubscriptionEmail`
(`from` is spelt `fromAddr`; `date` is the optional `email.date`). -/
structure LegacyEmail where
  fromAddr : String
  subject : String
  body : String
  date : Option Int
  deriving DecidableEq, Repr

/-- Models `SUBSCRIPTION_PATTERNS.trialStart`:
`/trial.{0,20}(starts?|begins?|activated|live)/i,
/free.{0,20}trial.{0,20}(starts?|begins?)/i,
/(\d+)[-\s]?days?.{0,20}free/i, /start.{0,20}your.{0,20}trial/i`. -/
def trialStartPatterns : List Pattern :=
  [ [[tl "trial", Tok.gapLe 20, tl "start", Tok.optLit ['s']],
     [tl "trial", Tok.gapLe 20, tl "begin", Tok.optLit ['s']],
     [tl "trial", Tok.gapLe 20, tl "activated"],
     [tl "trial", Tok.gapLe 20, tl "live"]],
    [[tl "free", Tok.gapLe 20, tl "trial", Tok.gapLe 20, tl "start", Tok.optLit ['s']],
     [tl "free", Tok.gapLe 20, tl "trial", Tok.gapLe 20, tl "begin", Tok.optLit ['s']]],
    p1 [Tok.digits, Tok.clsOpt dashSpace, tl "day", Tok.optLit ['s'], Tok.gapLe 20, tl "free"],
    p1 [tl "start", Tok.gapLe 20, tl "your", Tok.gapLe 20, tl "trial"] ]

/-- Models `SUBSCRIPTION_PATTERNS.trialEnd`:
`/trial.{0,20}(ends?|expires?|expiring|ending)/i,
/trial.{0,20}will.{0,20}(end|expire)/i,
/(\d+).{0,20}days?.{0,20}left.{0,20}trial/i,
/trial.{0,20}period.{0,20}(ends?|expires?)/i`. -/
def trialEndPatterns : List Pattern :=
  [ [[tl "trial", Tok.gapLe 20, tl "end", Tok.optLit ['s']],
     [tl "trial", Tok.gapLe 20, tl "expire", Tok.optLit ['s']],
     [tl "trial", Tok.gapLe 20, tl "expiring"],
     [tl "trial", Tok.gapLe 20, tl "ending"]],
    [[tl "trial", Tok.gapLe 20, tl "will", Tok.gapLe 20, tl "end"],
     [tl "trial", Tok.gapLe 20, tl "will", Tok.gapLe 20, tl "expire"]],
    p1 [Tok.digits, Tok.gapLe 20, tl "day", Tok.optLit ['s'], Tok.gapLe 20, tl "left", Tok.gapLe 20, tl "trial"],
    [[tl "trial", Tok.gapLe 20, tl "period", Tok.gapLe 20, tl "end", Tok.optLit ['s']],
     [tl "trial", Tok.gapLe 20, tl "period", Tok.gapLe 20, tl "expire", Tok.optLit ['s']]] ]

/-- Models `SUBSCRIPTION_PATTERNS.billing`:
`/bill(?:ing)?.{0,20}(date|cycle|period)/i,
/next.{0,20}(payment|charge|bill)/i, /subscription.{0,20}renew/i,
/auto[-\s]?renew/i, /recurring.{0,20}(payment|charge)/i`. -/
def billingPatterns : List Pattern :=
  [ [[tl "bill", Tok.optLit ("ing".toList), Tok.gapLe 20, tl "date"],
     [tl "bill", Tok.optLit ("ing".toList), Tok.gapLe 20, tl "cycle"],
     [tl "bill", Tok.optLit ("ing".toList), Tok.gapLe 20, tl "period"]],
    [[tl "next", Tok.gapLe 20, tl "payment"],
     [tl "next", Tok.gapLe 20, tl "charge"],
     [tl "next", Tok.gapLe 20, tl "bill"]],
    p1 [tl "subscription", Tok.gapLe 20, tl "renew"],
    p1 [tl "auto", Tok.clsOpt dashSpace, tl "renew"],
    [[tl "recurring", Tok.gapLe 20, tl "payment"],
     [tl "recurring", Tok.gapLe 20, tl "charge"]] ]

/-- Models `SUBSCRIPTION_PATTERNS.cancellation`:
`/subscription.{0,20}(cancelled?|terminated)/i,
/cancelled?.{0,20}your.{0,20}subscription/i,
/no.{0,20}longer.{0,20}subscribed/i,
/membership.{0,20}(cancelled?|ended)/i`. -/
def cancellationPatterns : List Pattern :=
  [ [[tl "subscription", Tok.gapLe 20, tl "cancelle", Tok.optLit ['d']],
     [tl "subscription", Tok.gapLe 20, tl "terminated"]],
    p1 [tl "cancelle", Tok.optLit ['d'], Tok.gapLe 20, tl "your", Tok.gapLe 20, tl "subscription"],
    p1 [tl "no", Tok.gapLe 20, tl "longer", Tok.gapLe 20, tl "subscribed"],
    [[tl "membership", Tok.gapLe 20, tl "cancelle", Tok.optLit ['d']],
     [tl "membership", Tok.gapLe 20, tl "ended"]] ]

/-- Models `SUBSCRIPTION_PATTERNS.priceChange`:
`/price.{0,20}(change|increase|update)/i, /new.{0,20}pricing/i,
/rate.{0,20}(change|increase)/i,
/billing.{0,20}amount.{0,20}(change|update)/i`. -/
def priceChangePatterns : List Pattern :=
  [ [[tl "price", Tok.gapLe 20, tl "change"],
     [tl "price", Tok.gapLe 20, tl "increase"],
     [tl "price", Tok.gapLe 20, tl "update"]],
    p1 [tl "new", Tok.gapLe 20, tl "pricing"],
    [[tl "rate", Tok.gapLe 20, tl "change"],
     [tl "rate", Tok.gapLe 20, tl "increase"]],
    [[tl "billing", Tok.gapLe 20, tl "amount", Tok.gapLe 20, tl "change"],
     [tl "billing", Tok.gapLe 20, tl "amount", Tok.gapLe 20, tl "update"]] ]

/-- Models `detectEmailType`: first key of `SUBSCRIPTION_PATTERNS` (in
insertion order `trialStart, trialEnd, billing, cancellation,
priceChange`) one of whose patterns matches `subject + ' ' + body`,
else `unknown`. -/
def detectEmailType (email : LegacyEmail) : LegacyType :=
  let c := (email.subject ++ " " ++ email.body).toList
  if trialStartPatterns.any (fun p => testPat p c) then LegacyType.trialStart
  else if trialEndPatterns.any (fun p => testPat p c) then LegacyType.trialEnd
  else if billingPatterns.any (fun p => testPat p c) then LegacyType.billing
  else if cancellationPatterns.any (fun p => testPat p c) then LegacyType.cancellation
  else if priceChangePatterns.any (fun p => testPat p c) then LegacyType.priceChange
  else LegacyType.unknown

/-- Models `countPatternMatches`: how many individual regexes across all of
`SUBSCRIPTION_PATTERNS` match the content. -/
def countPatternMatches (email : LegacyEmail) : Nat :=
  let c := (email.subject ++ " " ++ email.body).toList
  (trialStartPatterns ++ trialEndPatterns ++ billingPatterns ++
   cancellationPatterns ++ priceChangePatterns).countP (fun p => testPat p c)

/-- One step of the legacy service-name regexes: a case-insensitive
literal. -/
def litStep (w : String) (s : List Char) : Option (List Char) :=
  if startsWithCI w.toList s then some (dropN w.toList.length s) else none

/-- One `\s+` step when followed by a letter literal: the whitespace
run is consumed whole (a shorter split would leave a space where the
following letter is required, so greediness is forced). -/
def spStep (s : List Char) : Option (List Char) :=
  let k := runLen isSpaceC s
  if k = 0 then none else some (dropN k s)

/-- Models `\s+([A-Za-z0-9\s]+)` at the end of a regex: the greedy `\s+`
takes the whole whitespace run and the capture the following class run;
when nothing capturable follows, the regex backtracks one space (which
itself belongs to the capture class), so a run of ≥ 2 spaces still
matches with a single-space capture. -/
def spThenCapEnd (s : List Char) : Option (List Char) :=
  let k := runLen isSpaceC s
  if k = 0 then none
  else
    match capRunEnd (dropN k s) with
    | some c => some c
    | none => if 2 ≤ k then some ((dropN (k - 1) s).take 1) else none

/-- Models `SERVICE_NAME_PATTERNS[0]`:
`/thank\s+you\s+for\s+(?:subscribing|signing\s+up)\s+(?:to|for)\s+([A-Za-z0-9\s]+)/i`,
anchored at a position.  The alternations are between literals with
distinct leading letters, so at most one branch can start to match and
the `Option.orElse` chain realises the regex's backtracking. -/
def legacyServiceP1At (s : List Char) : Option (List Char) :=
  (litStep "thank" s).bind fun s => (spStep s).bind fun s =>
  (litStep "you" s).bind fun s => (spStep s).bind fun s =>
  (litStep "for" s).bind fun s => (spStep s).bind fun s =>
  ((litStep "subscribing" s).orElse (fun _ =>
     (litStep "signing" s).bind fun s => (spStep s).bind fun s =>
     litStep "up" s)).bind fun s =>
  (spStep s).bind fun s =>
  ((litStep "to" s).bind fun s2 => spThenCapEnd s2).orElse (fun _ =>
   (litStep "for" s).bind fun s2 => spThenCapEnd s2)

/-- Does `\s+(?:subscription|membership|account)` match at `s`?  (The
post-context of the capture in `SERVICE_NAME_PATTERNS[1]`.) -/
def spKwAfter (s : List Char) : Bool :=
  let m := runLen isSpaceC s
  decide (1 ≤ m) &&
    (["subscription", "membership", "account"].any
      (fun kw => startsWithCI kw.toList (dropN m s)))

/-- Greedy capture of `([A-Za-z0-9\s]+)` whose post-context is
`\s+(?:subscription|membership|account)`. -/
def capRunBeforeSpKw (s : List Char) : Option (List Char) :=
  let r := runLen isCapClsC s
  (List.range r).findSome? (fun i =>
    let k := r - i
    if spKwAfter (dropN k s) then some (s.take k) else none)

/-- Models `SERVICE_NAME_PATTERNS[1]`:
`/your\s+([A-Za-z0-9\s]+)\s+(?:subscription|membership|account)/i`,
anchored at a position (the leading `\s+` backtracks over its run; the
capture class contains whitespace, so every split must be tried). -/
def legacyServiceP2At (s : List Char) : Option (List Char) :=
  (litStep "your" s).bind fun s1 =>
  let k := runLen isSpaceC s1
  if k = 0 then none
  else
    (List.range k).findSome? (fun i =>
      let j := k - i
      capRunBeforeSpKw (dropN j s1))

/-- Models `SERVICE_NAME_PATTERNS[2]`:
`/welcome\s+to\s+([A-Za-z0-9\s]+)/i`, anchored at a position. -/
def legacyServiceP3At (s : List Char) : Option (List Char) :=
  (litStep "welcome" s).bind fun s => (spStep s).bind fun s =>
  (litStep "to" s).bind fun s => spThenCapEnd s

/-- The `SERVICE_NAME_PATTERNS` loop: each pattern in order over the
whole content, first match wins, value is the first capture group. -/
def serviceNameCapture (content : List Char) : Option (List Char) :=
  (firstSome legacyServiceP1At content).orElse (fun _ =>
  (firstSome legacyServiceP2At content).orElse (fun _ =>
  firstSome legacyServiceP3At content))

def genericDomains : List String :=
  ["gmail", "yahoo", "outlook", "hotmail", "mail", "email", "noreply", "no-reply"]

/-- Models `/@([^.]+)/` anchored at a position: an `'@'` followed by at least
one non-dot character; the capture is the maximal non-dot run. -/
def atDomainAt (s : List Char) : Option (List Char) :=
  match s with
  | '@' :: rest =>
    let r := runLen (fun c => !(c == '.')) rest
    if r = 0 then none else some (rest.take r)
  | _ => none

/-- Models `/@(.+)$/` anchored at a position: an `'@'` followed by at least
one character, all of them matched by `.` (which excludes line
terminators) up to the end of the string. -/
def atAllAt (s : List Char) : Option (List Char) :=
  match s with
  | '@' :: rest =>
    if rest.isEmpty then none
    else if rest.all (fun c => !(c == '\n') && !(c == '\r')) then some rest
    else none
  | _ => none

/-- Models `extractFromDomain` of `emailParser.js`. -/
def extractFromDomain (emailAddress : String) : String :=
  if emailAddress = "" then "unknown"
  else
    match firstSome atDomainAt emailAddress.toList with
    | none => "unknown"
    | some d0 =>
      let domain := lowerL d0
      if genericDomains.any (fun g => g.toList == domain) then
        match firstSome atAllAt emailAddress.toList with
        | some full =>
          match (splitChar '.' full).find? (fun part =>
              !(genericDomains.any (fun g => g.toList == lowerL part)) &&
              decide (2 < part.length)) with
          | some part => String.mk (capitalizeL part)
          | none => "unknown"
        | none => "unknown"
      else String.mk (capitalizeL domain)

theorem dropWhile_len_le (p : Char → Bool) (l : List Char) :
    (l.dropWhile p).length ≤ l.length := by
  induction l with
  | nil => simp
  | cons c l ih =>
    by_cases h : p c = true
    · simp only [List.dropWhile, h, List.length_cons]
      omega
    · simp only [List.dropWhile, h, List.length_cons]
      omega

/-- Models `String.split(/\s+/)`: pieces between whitespace runs, keeping the
empty leading/trailing pieces exactly as JS does. -/
def splitWsGo : List Char → List Char → List (List Char)
  | cur, [] => [cur.reverse]
  | cur, c :: s =>
    if isSpaceC c then cur.reverse :: splitWsGo [] (s.dropWhile isSpaceC)
    else splitWsGo (c :: cur) s
  termination_by _ s => s.length
  decreasing_by
    · have := dropWhile_len_le isSpaceC s
      simp only [List.length_cons]
      omega
    · simp only [List.length_cons]
      omega

def splitWs (s : List Char) : List (List Char) := splitWsGo [] s

/-- Models `extractServiceName` of `emailParser.js`: body patterns first, then
the sender domain, then the first subject word longer than 3 characters
that starts with an upper-case letter, else `'Unknown Service'`. -/
def extractServiceName (email : LegacyEmail) : String :=
  let content := (email.subject ++ " " ++ email.body).toList
  match serviceNameCapture content with
  | some cap => String.mk (trimL cap)
  | none =>
    let domain := extractFromDomain email.fromAddr
    if domain ≠ "unknown" then domain
    else
      match (splitWs email.subject.toList).find? (fun wd =>
          decide (3 < wd.length) &&
          (match wd with | c :: _ => isUpperC c | [] => false)) with
      | some wd => String.mk wd
      | none => "Unknown Service"

/-- Models `AMOUNT_PATTERNS[0]`, `/\$\s*(\d+(?:\.\d{2})?)/g`, anchored at a
position: value in cents and length of the full match. -/
def amtDollarAt (s : List Char) : Option (Nat × Nat) :=
  match s with
  | '$' :: rest =>
    let sp := runLen isSpaceC rest
    (decCentsAt (dropN sp rest)).map (fun r => (r.1, 1 + sp + r.2))
  | _ => none

/-- Models `AMOUNT_PATTERNS[1]`, `/USD\s*(\d+(?:\.\d{2})?)/gi`, anchored at a
position. -/
def amtUsdNumAt (s : List Char) : Option (Nat × Nat) :=
  if startsWithCI ("usd".toList) s then
    let rest := dropN 3 s
    let sp := runLen isSpaceC rest
    (decCentsAt (dropN sp rest)).map (fun r => (r.1, 3 + sp + r.2))
  else none

/-- Models `AMOUNT_PATTERNS[2]`, `/(\d+(?:\.\d{2})?)\s*USD/gi`, anchored at a
position: the same expression as cost pattern 2 of `email-parser.ts`. -/
def amtNumUsdAt (s : List Char) : Option (Nat × Nat) :=
  (EmailSubscriptionParser.tsNumUsdAt s).map (fun r => (r.1, r.2.length))

/-- Models `AMOUNT_PATTERNS[3]` and `[4]`, `/€\s*(\d+(?:\.\d{2})?)/g` and
`/£\s*(\d+(?:\.\d{2})?)/g`, anchored at a position. -/
def amtSymAt (sym : Char) (s : List Char) : Option (Nat × Nat) :=
  match s with
  | c :: rest =>
    if c == sym then
      let sp := runLen isSpaceC rest
      (decCentsAt (dropN sp rest)).map (fun r => (r.1, 1 + sp + r.2))
    else none
  | [] => none

/-- Global-regex scan driver (`while ((match = pattern.exec(content)))`):
find successive matches left to right, resuming after each match's end.
Recursion is on a fuel bounded by the text length (each step consumes at
least one character), keeping the definition structurally recursive and
hence computable by the kernel. -/
def scanGGo (step : List Char → Option (Nat × Nat)) : Nat → List Char → List Nat
  | _, [] => []
  | 0, _ => []
  | n + 1, c :: rest =>
    match step (c :: rest) with
    | some (v, len) => v :: scanGGo step n (dropN (len - 1) rest)
    | none => scanGGo step n rest

def scanG (step : List Char → Option (Nat × Nat)) (s : List Char) : List Nat :=
  scanGGo step s.length s

/-- The in-range filter of `extractAmount`:
`!isNaN(amount) && amount > 0 && amount < 10000` (dollars), i.e.
`0 < cents < 1000000`. -/
def amountInRange (v : Nat) : Bool := decide (0 < v) && decide (v < 1000000)

/-- The collection loop of `extractAmount`: every match of every
`AMOUNT_PATTERNS` entry, pattern by pattern, filtered to the plausible
range. -/
def extractAmountList (content : List Char) : List Nat :=
  ((scanG amtDollarAt content).filter amountInRange) ++
  ((scanG amtUsdNumAt content).filter amountInRange) ++
  ((scanG amtNumUsdAt content).filter amountInRange) ++
  ((scanG (amtSymAt '€') content).filter amountInRange) ++
  ((scanG (amtSymAt '£') content).filter amountInRange)

/-- One step of `[...new Set(sortedList)]`: keep the head, drop its
later duplicates, recurse (on a fuel bounded by the list length, so the
definition stays structurally recursive). -/
def dedupFirstGo : Nat → List Nat → List Nat
  | _, [] => []
  | 0, _ => []
  | n + 1, a :: l => a :: dedupFirstGo n (l.filter (fun b => !(b == a)))

/-- Models `[...new Set(sortedList)]`: first occurrences in order. -/
def dedupFirst (l : List Nat) : List Nat := dedupFirstGo l.length l

/-- The iteration of `findMode`: running through the list keeping the
frequency table (represented by the processed prefix `seen`), the
maximal running count and the element that last achieved it. -/
def findModeGo (seen : List Nat) : List Nat → Nat → Option Nat → Nat × Option Nat
  | [], maxFreq, mode => (maxFreq, mode)
  | n :: rest, maxFreq, mode =>
    let c := seen.count n + 1
    if maxFreq < c then findModeGo (seen ++ [n]) rest c (some n)
    else findModeGo (seen ++ [n]) rest maxFreq mode

/-- Models `findMode` of `emailParser.js`: the most frequent value, or `null`
when every value occurs at most once (`maxFreq > 1` guard). -/
def findMode (l : List Nat) : Option Nat :=
  let r := findModeGo [] l 0 none
  if 1 < r.1 then r.2 else none

/-- The selection logic of `extractAmount` after collection: empty →
`null`; a single distinct amount → that amount; otherwise the mode when
one exists with frequency > 1, else the middle element
(`amounts[Math.floor(amounts.length / 2)]`) of the ascending list. -/
def selectAmount (amounts : List Nat) : Option Nat :=
  if amounts.isEmpty then none
  else
    let sorted := List.insertionSort (· ≤ ·) amounts
    let uniqueAmounts := dedupFirst sorted
    if uniqueAmounts.length = 1 then uniqueAmounts.head?
    else
      match findMode sorted with
      | some m => some m
      | none => some (sorted.getD (sorted.length / 2) 0)

/-- Models `extractAmount` of `emailParser.js` (cents). -/
def extractAmount (email : LegacyEmail) : Option Nat :=
  extractAmountList ((email.subject ++ " " ++ email.body).toList) |> selectAmount

/-- Models `extractDates`: `chrono.parse(content)`, keeping the timestamps
(the `text`/`confidence` decorations of the source are dropped — no
caller reads them). -/
def extractDates (chrono : Chrono) (content : String) : List Int :=
  chrono content

/-- Models `/trial.{0,100}(end|expire).{0,100}/gi` anchored at a position:
`trial`, then a greedy bounded gap (tried longest first), then `end`
(preferred) or `expire`, then a greedy bounded tail; returns the
matched window text. -/
def trialWindowAt (s : List Char) : Option (List Char) :=
  if startsWithCI ("trial".toList) s then
    let rest := dropN 5 s
    let m := Nat.min 100 rest.length
    match (List.range (m + 1)).findSome? (fun i =>
        let g := m - i
        if startsWithCI ("end".toList) (dropN g rest) then some (g, 3)
        else if startsWithCI ("expire".toList) (dropN g rest) then some (g, 6)
        else none) with
    | some (g, kw) =>
      let t := Nat.min 100 (dropN (g + kw) rest).length
      some (s.take (5 + g + kw + t))
    | none => none
  else none

/-- The first match of the trial-window regex
(`content.match(/trial.{0,100}(end|expire).{0,100}/gi)` index 0). -/
def firstTrialWindow (s : List Char) : Option (List Char) :=
  firstSome trialWindowAt s

/-- Models `extractTrialEndDate` of `emailParser.js`: first date of the trial
window when the window matches and has dates, otherwise the first
parsed date strictly after `email.date || Date.now()`. -/
def extractTrialEndDate (chrono : Chrono) (now : Int) (email : LegacyEmail) : Option Int :=
  let content := email.subject ++ " " ++ email.body
  let fallback :=
    let allDates := extractDates chrono content
    let emailDate := email.date.getD now
    match allDates.filter (fun d => decide (emailDate < d)) with
    | d :: _ => some d
    | [] => none
  match firstTrialWindow content.toList with
  | some w =>
    match extractDates chrono (String.mk w) with
    | d :: _ => some d
    | [] => fallback
  | none => fallback

/-- The `extractedData` object assembled by `parseSubscriptionEmail`
and consumed by `calculateConfidence`. -/
structure LegacyExtracted where
  type : LegacyType
  serviceName : String
  trialEndDate : Option Int
  billingAmount : Option Nat
  deriving DecidableEq, Repr

/-- Models `calculateConfidence` of `emailParser.js` (tenths): +0.3 for a
known type, +0.2 for a resolved service name, +0.2 for a trial end
date, +0.2 for a truthy billing amount, +0.1 for more than two pattern
matches; the `factors > 0 ? confidence : 0` guard of the source is kept
verbatim. -/
def calculateConfidence (email : LegacyEmail) (ed : LegacyExtracted) : Nat :=
  let conf1 := if ed.type ≠ LegacyType.unknown then 3 else 0
  let fac1 : Nat := if ed.type ≠ LegacyType.unknown then 1 else 0
  let conf2 := conf1 + (if ed.serviceName ≠ "Unknown Service" then 2 else 0)
  let fac2 := fac1 + (if ed.serviceName ≠ "Unknown Service" then 1 else 0)
  let conf3 := conf2 + (if ed.trialEndDate.isSome then 2 else 0)
  let fac3 := fac2 + (if ed.trialEndDate.isSome then 1 else 0)
  let conf4 := conf3 + (if ed.billingAmount.getD 0 ≠ 0 then 2 else 0)
  let fac4 := fac3 + (if ed.billingAmount.getD 0 ≠ 0 then 1 else 0)
  let conf5 := conf4 + (if 2 < countPatternMatches email then 1 else 0)
  let fac5 := fac4 + (if 2 < countPatternMatches email then 1 else 0)
  if 0 < fac5 then conf5 else 0

/-- The record returned by `parseSubscriptionEmail` (the `metadata`
object is flattened into the `meta*` fields; `metadata.emailDate` is
`email.date || new Date().toISOString()`). -/
structure LegacyParsed where
  type : LegacyType
  serviceName : String
  trialEndDate : Option Int
  billingAmount : Option Nat
  confidence : Nat
  metaEmailDate : Int
  metaFrom : String
  metaSubject : String
  deriving DecidableEq, Repr

/-- Models `parseSubscriptionEmail` of `emailParser.js`.  The thrown
`Error('Invalid email object: must have subject or body')` is modelled
as `Except.error`; it fires when `subject` and `body` are both empty
(JS falsiness of the empty string). -/
def parseSubscriptionEmail (chrono : Chrono) (now : Int) (email : LegacyEmail) :
    Except String LegacyParsed :=
  if email.subject = "" && email.body = "" then
    Except.error "Invalid email object: must have subject or body"
  else
    let ty := detectEmailType email
    let serviceName := extractServiceName email
    let trialEndDate := extractTrialEndDate chrono now email
    let billingAmount := extractAmount email
    let ed : LegacyExtracted := ⟨ty, serviceName, trialEndDate, billingAmount⟩
    Except.ok
      { type := ty, serviceName := serviceName, trialEndDate := trialEndDate,
        billingAmount := billingAmount,
        confidence := calculateConfidence email ed,
        metaEmailDate := email.date.getD now,
        metaFrom := email.fromAddr, metaSubject := email.subject }

end EmailParserJS

namespace EmailSubscriptionParser

/-- The cost bonus test of `calculateConfidence`:
`/\$\d+|\d+.*USD|€\d+|£\d+/i`. -/
def costSignalPat : Pattern :=
  [ [tl "$", Tok.digits],
    [Tok.digits, Tok.gap, tl "usd"],
    [tl "€", Tok.digits],
    [tl "£", Tok.digits] ]

/-- The billing-cycle bonus test of `calculateConfidence`:
`/monthly|quarterly|annually|yearly|weekly/i`. -/
def cycleSignalPat : Pattern :=
  [ [tl "monthly"], [tl "quarterly"], [tl "annually"], [tl "yearly"], [tl "weekly"] ]

/-- The date bonus test of `calculateConfidence`:
`/\d{1,2}\/\d{1,2}\/\d{4}|\d{4}-\d{2}-\d{2}|january|february|…|december/i`
(the two `\d{1,2}` are distributed into their 1- and 2-digit cases). -/
def dateSignalPat : Pattern :=
  [ [Tok.digitsCnt 1, tl "/", Tok.digitsCnt 1, tl "/", Tok.digitsCnt 4],
    [Tok.digitsCnt 1, tl "/", Tok.digitsCnt 2, tl "/", Tok.digitsCnt 4],
    [Tok.digitsCnt 2, tl "/", Tok.digitsCnt 1, tl "/", Tok.digitsCnt 4],
    [Tok.digitsCnt 2, tl "/", Tok.digitsCnt 2, tl "/", Tok.digitsCnt 4],
    [Tok.digitsCnt 4, tl "-", Tok.digitsCnt 2, tl "-", Tok.digitsCnt 2],
    [tl "january"], [tl "february"], [tl "march"], [tl "april"],
    [tl "may"], [tl "june"], [tl "july"], [tl "august"],
    [tl "september"], [tl "october"], [tl "november"], [tl "december"] ]

/-- The `patternCounts` table of `calculateConfidence`, indexed by
detection type. -/
def patternsFor : DetectionType → List Pattern
  | DetectionType.trial_signup => TRIAL_SIGNUP_PATTERNS
  | DetectionType.trial_reminder => TRIAL_REMINDER_PATTERNS
  | DetectionType.billing_confirmation => BILLING_CONFIRMATION_PATTERNS
  | DetectionType.subscription_start => SUBSCRIPTION_START_PATTERNS
  | DetectionType.price_change => PRICE_CHANGE_PATTERNS

/-- How many patterns of the type's set match the content
(`patternCounts[type]`). -/
def countMatches (t : DetectionType) (content : List Char) : Nat :=
  (patternsFor t).countP (fun p => testPat p content)

/-- Models `calculateConfidence` of `email-parser.ts`, in tenths: base 0.5,
+0.1 per matching pattern of the candidate type, +0.2 for a cost
signal, +0.1 for a billing-cycle keyword, +0.1 for a date mention,
clipped by `Math.min(confidence, 1.0)`. -/
def calculateConfidence (content : String) (t : DetectionType) : Nat :=
  let cs := content.toList
  let c1 := 5 + countMatches t cs * 1
  let c2 := c1 + (if testPat costSignalPat cs then 2 else 0)
  let c3 := c2 + (if testPat cycleSignalPat cs then 1 else 0)
  let c4 := c3 + (if testPat dateSignalPat cs then 1 else 0)
  Nat.min c4 10

/-- The partial record produced by `extractSubscriptionData`. -/
structure SubData where
  cost : Option Nat
  currency : Option String
  billingCycle : Option String
  trialEndDate : Option Int
  deriving DecidableEq, Repr

/-- Models `extractSubscriptionData` of `email-parser.ts`: first cost match
(value and currency), first billing-cycle keyword, and the trial end
date obtained by feeding `{from: '', subject: content.substring(0,100),
body: content}` to the legacy `parseSubscriptionEmail` inside a
`try`/`catch` that maps any error to "no date". -/
def extractSubscriptionData (chrono : Chrono) (now : Int) (content : String) : SubData :=
  let cs := content.toList
  let costM := firstCostMatch cs
  let emailObj : EmailParserJS.LegacyEmail :=
    { fromAddr := "", subject := String.mk (cs.take 100), body := content, date := none }
  { cost := costM.map (fun r => r.1),
    currency := costM.map (fun r => extractCurrency r.2),
    billingCycle := extractBillingCycle cs,
    trialEndDate :=
      match EmailParserJS.parseSubscriptionEmail chrono now emailObj with
      | Except.ok parsed => parsed.trialEndDate
      | Except.error _ => none }

/-- The detection record shared by the five `detect*` helpers: spread
of `extractSubscriptionData` over the base fields, plus the raw
500-character snippet (`nextBillingDate` is never set by the
source). -/
def mkDetection (chrono : Chrono) (now : Int) (content : String)
    (serviceName : String) (t : DetectionType) : DetectedSubscription :=
  let d := extractSubscriptionData chrono now content
  { serviceName := serviceName, detectionType := t,
    confidence := calculateConfidence content t,
    cost := d.cost, currency := d.currency, billingCycle := d.billingCycle,
    trialEndDate := d.trialEndDate, nextBillingDate := none,
    extractedData := String.mk (content.toList.take 500) }

/-- Models `detectTrialSignup`: a detection iff some `TRIAL_SIGNUP_PATTERNS`
regex matches (the record does not depend on which one, so the
first-match loop of the source is an existence test). -/
def detectTrialSignup (chrono : Chrono) (now : Int) (content : String)
    (serviceName : String) : Option DetectedSubscription :=
  if TRIAL_SIGNUP_PATTERNS.any (fun p => testPat p content.toList) then
    some (mkDetection chrono now content serviceName DetectionType.trial_signup)
  else none

/-- Models `detectTrialReminder`; same shape as `detectTrialSignup`. -/
def detectTrialReminder (chrono : Chrono) (now : Int) (content : String)
    (serviceName : String) : Option DetectedSubscription :=
  if TRIAL_REMINDER_PATTERNS.any (fun p => testPat p content.toList) then
    some (mkDetection chrono now content serviceName DetectionType.trial_reminder)
  else none

/-- Models `detectBillingConfirmation`; same shape as `detectTrialSignup`. -/
def detectBillingConfirmation (chrono : Chrono) (now : Int) (content : String)
    (serviceName : String) : Option DetectedSubscription :=
  if BILLING_CONFIRMATION_PATTERNS.any (fun p => testPat p content.toList) then
    some (mkDetection chrono now content serviceName DetectionType.billing_confirmation)
  else none

/-- Models `detectSubscriptionStart`; same shape as `detectTrialSignup`. -/
def detectSubscriptionStart (chrono : Chrono) (now : Int) (content : String)
    (serviceName : String) : Option DetectedSubscription :=
  if SUBSCRIPTION_START_PATTERNS.any (fun p => testPat p content.toList) then
    some (mkDetection chrono now content serviceName DetectionType.subscription_start)
  else none

/-- Models `detectPriceChange`; same shape as `detectTrialSignup`. -/
def detectPriceChange (chrono : Chrono) (now : Int) (content : String)
    (serviceName : String) : Option DetectedSubscription :=
  if PRICE_CHANGE_PATTERNS.any (fun p => testPat p content.toList) then
    some (mkDetection chrono now content serviceName DetectionType.price_change)
  else none

/-- Models `EmailSubscriptionParser.parseEmail`, the detect entry point: spam
short-circuit, service-name hard stop (`!serviceName` is true for both
`null` and the empty string), then one optional detection per type in
source order. -/
def parseEmail (chrono : Chrono) (now : Int) (emailData : EmailData) :
    List DetectedSubscription :=
  let content := getEmailContent emailData
  if isSpamEmail content.toList emailData.fromAddr then []
  else
    match extractServiceName emailData.fromAddr content.toList with
    | none => []
    | some serviceName =>
      if serviceName = "" then []
      else
        (detectTrialSignup chrono now content serviceName).toList ++
        (detectTrialReminder chrono now content serviceName).toList ++
        (detectBillingConfirmation chrono now content serviceName).toList ++
        (detectSubscriptionStart chrono now content serviceName).toList ++
        (detectPriceChange chrono now content serviceName).toList

end EmailSubscriptionParser

namespace UtilsJS

/-- Models `detectBillingCycle` of `src/src/utils.js`: the four keyword tests
in insertion order `monthly, annually, quarterly, weekly`
(`/month(?:ly)?|every\s+month|per\s+month/i`, etc.), defaulting to
`'monthly'` when none matches. -/
def detectBillingCycle (emailContent : String) : String :=
  let c := emailContent.toList
  if testPat [[tl "month", Tok.optLit ("ly".toList)],
              [tl "every", Tok.spPlus, tl "month"],
              [tl "per", Tok.spPlus, tl "month"]] c then "monthly"
  else if testPat [[tl "annual", Tok.optLit ("ly".toList)],
                   [tl "year", Tok.optLit ("ly".toList)],
                   [tl "every", Tok.spPlus, tl "year"],
                   [tl "per", Tok.spPlus, tl "year"]] c then "annually"
  else if testPat [[tl "quarter", Tok.optLit ("ly".toList)],
                   [tl "every", Tok.spPlus, tl "3", Tok.spPlus, tl "months"]] c then "quarterly"
  else if testPat [[tl "week", Tok.optLit ("ly".toList)],
                   [tl "every", Tok.spPlus, tl "week"],
                   [tl "per", Tok.spPlus, tl "week"]] c then "weekly"
  else "monthly"

end UtilsJS

/-- The spec's `billingCycle` enumeration
(`{weekly, monthly, quarterly, semi-annually, annually}`), stated from
the spec's words for comparison with what the code emits. -/
def specBillingCycleEnum : List String :=
  ["weekly", "monthly", "quarterly", "semi-annually", "annually"]

/-! Concrete inputs used by the witnesses and counterexamples. -/

/-- A date-parser instance that parses nothing (any behaviour of the
library is admissible where dates are irrelevant). -/
def chronoEmpty : Chrono := fun _ => []

/-- A date-parser instance modelling that `chrono-node` parses the
explicit date "January 27, 2025" occurring in a text to some timestamp
(`1000` as an abstract epoch value). -/
def chronoJan : Chrono :=
  fun s => if containsCI ("january 27, 2025".toList) s.toList then [1000] else []

/-- Literal end-to-end scenario 1 of the spec (the Netflix renewal
mail). -/
def netflixEmail : EmailSubscriptionParser.EmailData :=
  { fromAddr := "billing@netflix.com", toAddr := "user@example.com",
    subject := "Your Netflix subscription has been renewed",
    bodyText := some "Your Netflix subscription has been renewed for $15.99/month. Next billing date is January 27, 2025.",
    bodyHtml := none, receivedAt := 0 }

/-- The single detection `parseEmail` produces for `netflixEmail`
(under any date-parser behaviour: no trial window and no date is ever
attached because the legacy fallback needs a date later than the
clock, and `chronoEmpty` parses none). -/
def netflixDetection : EmailSubscriptionParser.DetectedSubscription :=
  { serviceName := "Netflix",
    detectionType := EmailSubscriptionParser.DetectionType.billing_confirmation,
    confidence := 9, cost := some 1599, currency := some "USD",
    billingCycle := none, trialEndDate := none, nextBillingDate := none,
    extractedData := "Your Netflix subscription has been renewed Your Netflix subscription has been renewed for $15.99/month. Next billing date is January 27, 2025. " }

/-- Literal end-to-end scenario 3 of the spec (spam). -/
def spamEmail : EmailSubscriptionParser.EmailData :=
  { fromAddr := "promo@dealsnow.biz", toAddr := "user@example.com",
    subject := "Congratulations you won a free trial!! Act now!",
    bodyText := none, bodyHtml := none, receivedAt := 0 }

/-- An all-empty-content message from a recognizable sender. -/
def emptyNetflix : EmailSubscriptionParser.EmailData :=
  { fromAddr := "billing@netflix.com", toAddr := "user@example.com",
    subject := "", bodyText := none, bodyHtml := none, receivedAt := 0 }

/-- A minimal billing-confirmation mail used by the C10 witness. -/
def payEmail : EmailSubscriptionParser.EmailData :=
  { fromAddr := "billing@netflix.com", toAddr := "user@example.com",
    subject := "Payment successful", bodyText := none, bodyHtml := none,
    receivedAt := 0 }

/-- The detection `parseEmail` produces for `payEmail`. -/
def payDetection : EmailSubscriptionParser.DetectedSubscription :=
  { serviceName := "Netflix",
    detectionType := EmailSubscriptionParser.DetectionType.billing_confirmation,
    confidence := 6, cost := none, currency := none, billingCycle := none,
    trialEndDate := none, nextBillingDate := none,
    extractedData := "Payment successful  " }

/-- A billing mail whose content contains the keyword `monthly`. -/
def cycleEmail : EmailSubscriptionParser.EmailData :=
  { fromAddr := "billing@netflix.com", toAddr := "user@example.com",
    subject := "Payment successful", bodyText := some "Charged monthly.",
    bodyHtml := none, receivedAt := 0 }

/-- A legacy email whose content repeats the amount $5 twice and also
mentions $3 (mode case of the amount extractor). -/
def modeEmail : EmailParserJS.LegacyEmail :=
  { fromAddr := "billing@acme.com", subject := "Invoice",
    body := "Pay $5 today or $5 tomorrow or $3 later", date := none }

/-- A legacy email containing two explicit future dates, the LATER one
appearing FIRST in the text. -/
def twoDatesEmail : EmailParserJS.LegacyEmail :=
  { fromAddr := "bill@acme.com", subject := "Invoice",
    body := "due December 31, 2025 else March 1, 2025", date := some 0 }

/-- A date-parser instance modelling that `chrono-node` parses the two
dates of `twoDatesEmail` in document order: December 31, 2025 (the
later instant, abstract value 2000) before March 1, 2025 (abstract
value 1000). -/
def chronoTwo : Chrono :=
  fun s =>
    if s = "Invoice due December 31, 2025 else March 1, 2025" then [2000, 1000] else []

/-- A legacy email with a trial-keyword window containing a date. -/
def trialWinEmail : EmailParserJS.LegacyEmail :=
  { fromAddr := "trial@acme.com", subject := "Reminder",
    body := "your trial ends on March 1, 2025", date := some 0 }

/-- A date-parser instance that parses "March 1, 2025" (abstract value
5) wherever it occurs. -/
def chronoMarch : Chrono :=
  fun s => if containsCI ("march 1, 2025".toList) s.toList then [5] else []

/-- Erase the only clock-dependent field of a detection. -/
def eraseTrialEnd (d : EmailSubscriptionParser.DetectedSubscription) :
    EmailSubscriptionParser.DetectedSubscription :=
  { d with trialEndDate := none }

set_option maxRecDepth 100000

/-! Shared helper lemmas. -/

theorem tenths_nonneg (c : Nat) : (0:ℚ) ≤ (c:ℚ)/10 := by positivity

theorem tenths_le_one (c : Nat) (h : c ≤ 10) : (c:ℚ)/10 ≤ 1 := by
  have hc : (c:ℚ) ≤ 10 := by exact_mod_cast h
  linarith

theorem tenths_ge (c k : Nat) (h : k ≤ c) : (k:ℚ)/10 ≤ (c:ℚ)/10 := by
  have hc : (k:ℚ) ≤ (c:ℚ) := by exact_mod_cast h
  linarith

theorem countP_ge_one_of_any {α : Type} (l : List α) (p : α → Bool)
    (h : l.any p = true) : 1 ≤ l.countP p := by
  have h2 : 0 < l.countP p := List.countP_pos_iff.mpr (by simpa using h)
  omega

/-- C4 helper: a matching spam pattern makes `isSpamEmail` true. -/
theorem isSpamEmail_of_spamMatch (content : List Char) (fromAddr : String)
    (h : EmailSubscriptionParser.spamPatternMatch content = true) :
    EmailSubscriptionParser.isSpamEmail content fromAddr = true := by
  unfold EmailSubscriptionParser.isSpamEmail
  rw [h, Bool.true_or]

/-- C4.  For every message whose concatenated subject/body content
matches at least one spam pattern, the detect entry point returns the
empty detection list, regardless of anything else in the message. -/
theorem spam_shortcircuits_parseEmail (chrono : Chrono) (now : Int)
    (e : EmailSubscriptionParser.EmailData)
    (h : EmailSubscriptionParser.spamPatternMatch
          (EmailSubscriptionParser.getEmailContent e).toList = true) :
    EmailSubscriptionParser.parseEmail chrono now e = [] := by
  unfold EmailSubscriptionParser.parseEmail
  rw [if_pos]
  exact isSpamEmail_of_spamMatch _ _ h

/-- C4 witness: the spec's spam scenario (scenario 3), evaluated. -/
theorem spam_shortcircuits_parseEmail_witness :
    EmailSubscriptionParser.spamPatternMatch
      (EmailSubscriptionParser.getEmailContent spamEmail).toList = true ∧
    EmailSubscriptionParser.parseEmail chronoEmpty 0 spamEmail = [] :=
  have h : EmailSubscriptionParser.spamPatternMatch
      (EmailSubscriptionParser.getEmailContent spamEmail).toList = true := by decide
  ⟨h, spam_shortcircuits_parseEmail chronoEmpty 0 spamEmail h⟩

/-- The class scorer never exceeds 10 tenths. -/
theorem calcConf_le_ten (content : String) (t : EmailSubscriptionParser.DetectionType) :
    EmailSubscriptionParser.calculateConfidence content t ≤ 10 := by
  unfold EmailSubscriptionParser.calculateConfidence
  exact Nat.min_le_right _ _

/-- The legacy scorer never exceeds 10 tenths. -/
theorem legacyConf_le_ten (email : EmailParserJS.LegacyEmail)
    (ed : EmailParserJS.LegacyExtracted) :
    EmailParserJS.calculateConfidence email ed ≤ 10 := by
  unfold EmailParserJS.calculateConfidence
  dsimp only
  split_ifs <;> omega

/-- C9.  Both confidence scorers stay within [0, 1]: the class-based
scorer of `email-parser.ts` (base 0.5 plus additive bonuses, clipped by
`Math.min(·, 1.0)`) and the legacy additive 0.3/0.2/0.2/0.2/0.1 scorer
of `emailParser.js` (confidence represented in tenths; the bounds are
also stated over `ℚ` against the literal interval [0, 1]). -/
theorem confidence_bounded :
    (∀ (content : String) (t : EmailSubscriptionParser.DetectionType),
      (0:ℚ) ≤ (EmailSubscriptionParser.calculateConfidence content t : ℚ)/10 ∧
      (EmailSubscriptionParser.calculateConfidence content t : ℚ)/10 ≤ 1) ∧
    (∀ (email : EmailParserJS.LegacyEmail) (ed : EmailParserJS.LegacyExtracted),
      (0:ℚ) ≤ (EmailParserJS.calculateConfidence email ed : ℚ)/10 ∧
      (EmailParserJS.calculateConfidence email ed : ℚ)/10 ≤ 1) := by
  constructor
  · intro content t
    exact ⟨tenths_nonneg _, tenths_le_one _ (calcConf_le_ten content t)⟩
  · intro email ed
    exact ⟨tenths_nonneg _, tenths_le_one _ (legacyConf_le_ten email ed)⟩

/-- C3.  The class scorer is monotone in its signals: if `c'` preserves
every extractable signal of `c` (pattern matches of the candidate type,
the cost signal, the billing-cycle signal, the date signal), the
confidence for `(c', t)` is at least that for `(c, t)`. -/
theorem confidence_monotone (c c' : String) (t : EmailSubscriptionParser.DetectionType)
    (hcount : EmailSubscriptionParser.countMatches t c.toList ≤
      EmailSubscriptionParser.countMatches t c'.toList)
    (hcost : testPat EmailSubscriptionParser.costSignalPat c.toList = true →
      testPat EmailSubscriptionParser.costSignalPat c'.toList = true)
    (hcycle : testPat EmailSubscriptionParser.cycleSignalPat c.toList = true →
      testPat EmailSubscriptionParser.cycleSignalPat c'.toList = true)
    (hdate : testPat EmailSubscriptionParser.dateSignalPat c.toList = true →
      testPat EmailSubscriptionParser.dateSignalPat c'.toList = true) :
    EmailSubscriptionParser.calculateConfidence c t ≤
      EmailSubscriptionParser.calculateConfidence c' t := by
  unfold EmailSubscriptionParser.calculateConfidence
  dsimp only
  have h1 : (if testPat EmailSubscriptionParser.costSignalPat c.toList then 2 else 0) ≤
      (if testPat EmailSubscriptionParser.costSignalPat c'.toList then 2 else 0) := by
    split_ifs with a b
    · omega
    · exact absurd (hcost a) b
    · omega
    · omega
  have h2 : (if testPat EmailSubscriptionParser.cycleSignalPat c.toList then 1 else 0) ≤
      (if testPat EmailSubscriptionParser.cycleSignalPat c'.toList then 1 else 0) := by
    split_ifs with a b
    · omega
    · exact absurd (hcycle a) b
    · omega
    · omega
  have h3 : (if testPat EmailSubscriptionParser.dateSignalPat c.toList then 1 else 0) ≤
      (if testPat EmailSubscriptionParser.dateSignalPat c'.toList then 1 else 0) := by
    split_ifs with a b
    · omega
    · exact absurd (hdate a) b
    · omega
    · omega
  refine min_le_min ?_ (le_refl 10)
  omega

/-- C3 witness: adding the keyword `monthly` to the empty content
preserves (vacuously) all signals and the confidence does not
decrease. -/
theorem confidence_monotone_witness :
    EmailSubscriptionParser.calculateConfidence ""
      EmailSubscriptionParser.DetectionType.billing_confirmation ≤
    EmailSubscriptionParser.calculateConfidence "monthly"
      EmailSubscriptionParser.DetectionType.billing_confirmation :=
  confidence_monotone "" "monthly" EmailSubscriptionParser.DetectionType.billing_confirmation
    (by decide) (by decide) (by decide) (by decide)

/-- C10 helper: once some pattern of the candidate type matches, the
class scorer yields at least 0.6 (6 tenths): base 5 plus at least one
per-pattern tenth, and the `Math.min` clip keeps it ≥ 6 because
`10 ≥ 6`. -/
theorem calcConf_ge_six (content : String) (t : EmailSubscriptionParser.DetectionType)
    (h : (EmailSubscriptionParser.patternsFor t).any
          (fun p => testPat p content.toList) = true) :
    6 ≤ EmailSubscriptionParser.calculateConfidence content t := by
  have h1 : 1 ≤ EmailSubscriptionParser.countMatches t content.toList :=
    countP_ge_one_of_any _ _ h
  unfold EmailSubscriptionParser.calculateConfidence
  dsimp only
  refine le_min ?_ (by omega)
  have h2 : EmailSubscriptionParser.countMatches t content.toList =
      EmailSubscriptionParser.countMatches t content.toList := rfl
  omega

/-- C10.  Every detection emitted by `parseEmail` carries confidence at
least 0.6 (6 tenths): a detection of type `t` is only emitted when some
pattern of `t`'s set matches, and the scorer then adds at least one
0.1 per-pattern bonus to the 0.5 base before clipping at 1.0. -/
theorem parseEmail_confidence_ge (chrono : Chrono) (now : Int)
    (e : EmailSubscriptionParser.EmailData)
    (d : EmailSubscriptionParser.DetectedSubscription)
    (hd : d ∈ EmailSubscriptionParser.parseEmail chrono now e) :
    6 ≤ d.confidence ∧ (0.6:ℚ) ≤ (d.confidence : ℚ)/10 := by
  have main : ∃ t, (EmailSubscriptionParser.patternsFor t).any
      (fun p => testPat p (EmailSubscriptionParser.getEmailContent e).toList) = true ∧
      d.confidence =
        EmailSubscriptionParser.calculateConfidence
          (EmailSubscriptionParser.getEmailContent e) t := by
    unfold EmailSubscriptionParser.parseEmail at hd
    dsimp only at hd
    split at hd
    · simp at hd
    · split at hd
      · simp at hd
      · rename_i sn hsn
        split at hd
        · simp at hd
        · simp only [List.mem_append] at hd
          rcases hd with (((h1 | h2) | h3) | h4) | h5
          · unfold EmailSubscriptionParser.detectTrialSignup at h1
            split at h1
            · rename_i hb
              simp only [Option.toList_some, List.mem_singleton] at h1
              subst h1
              exact ⟨EmailSubscriptionParser.DetectionType.trial_signup, hb, rfl⟩
            · simp at h1
          · unfold EmailSubscriptionParser.detectTrialReminder at h2
            split at h2
            · rename_i hb
              simp only [Option.toList_some, List.mem_singleton] at h2
              subst h2
              exact ⟨EmailSubscriptionParser.DetectionType.trial_reminder, hb, rfl⟩
            · simp at h2
          · unfold EmailSubscriptionParser.detectBillingConfirmation at h3
            split at h3
            · rename_i hb
              simp only [Option.toList_some, List.mem_singleton] at h3
              subst h3
              exact ⟨EmailSubscriptionParser.DetectionType.billing_confirmation, hb, rfl⟩
            · simp at h3
          · unfold EmailSubscriptionParser.detectSubscriptionStart at h4
            split at h4
            · rename_i hb
              simp only [Option.toList_some, List.mem_singleton] at h4
              subst h4
              exact ⟨EmailSubscriptionParser.DetectionType.subscription_start, hb, rfl⟩
            · simp at h4
          · unfold EmailSubscriptionParser.detectPriceChange at h5
            split at h5
            · rename_i hb
              simp only [Option.toList_some, List.mem_singleton] at h5
              subst h5
              exact ⟨EmailSubscriptionParser.DetectionType.price_change, hb, rfl⟩
            · simp at h5
  obtain ⟨t, hany, hconf⟩ := main
  have h6 : 6 ≤ d.confidence := by
    rw [hconf]
    exact calcConf_ge_six _ t hany
  refine ⟨h6, ?_⟩
  have : (0.6:ℚ) = (6:ℚ)/10 := by norm_num
  rw [this]
  exact tenths_ge _ _ h6

/-- C10 witness: a concrete emitted detection with confidence exactly
0.6. -/
theorem parseEmail_confidence_ge_witness :
    payDetection ∈ EmailSubscriptionParser.parseEmail chronoEmpty 0 payEmail ∧
    6 ≤ payDetection.confidence ∧ (0.6:ℚ) ≤ (payDetection.confidence : ℚ)/10 :=
  have hm : payDetection ∈ EmailSubscriptionParser.parseEmail chronoEmpty 0 payEmail := by
    decide
  ⟨hm, parseEmail_confidence_ge chronoEmpty 0 payEmail payDetection hm⟩

/-- C1 counterexample: for the literal Netflix scenario the single
emitted detection has `billingCycle` ABSENT — the content contains
"$15.99/month", not any of the keywords `monthly`, `quarterly`,
`annually`, `yearly`, `weekly` — so the claimed `billingCycle=monthly`
is false. -/
theorem netflix_billingCycle_absent :
    (EmailSubscriptionParser.parseEmail chronoEmpty 0 netflixEmail).map
      (fun d => d.billingCycle) = [none] ∧
    ((none : Option String) ≠ some "monthly") := ⟨by decide, by decide⟩

/-- C1 (amended).  For the literal Netflix scenario and any date-parser
behaviour and clock, `parseEmail` returns exactly one detection with
`serviceName = "Netflix"`, `detectionType = billing_confirmation`,
`cost = 15.99` (1599 cents), `currency = "USD"`, confidence `0.9 ≥ 0.8`
— and `billingCycle` absent (not `monthly` as claimed). -/
theorem netflix_scenario (chrono : Chrono) (now : Int) :
    (EmailSubscriptionParser.parseEmail chrono now netflixEmail).map
      (fun d => (d.serviceName, d.detectionType, d.cost, d.currency,
                 d.billingCycle, d.confidence)) =
      [("Netflix", EmailSubscriptionParser.DetectionType.billing_confirmation,
        some 1599, some "USD", (none : Option String), 9)] ∧
    ((1599:ℚ)/100 = 15.99) ∧
    (∀ d ∈ EmailSubscriptionParser.parseEmail chrono now netflixEmail,
      (0.8:ℚ) ≤ (d.confidence : ℚ)/10) := by
  refine ⟨rfl, by norm_num, ?_⟩
  intro d hd
  have hc : (EmailSubscriptionParser.parseEmail chrono now netflixEmail).map
      (fun d => d.confidence) = [9] := rfl
  have hmem : d.confidence ∈ (EmailSubscriptionParser.parseEmail chrono now netflixEmail).map
      (fun d => d.confidence) := List.mem_map_of_mem _ hd
  rw [hc] at hmem
  have h9 : d.confidence = 9 := by simpa using hmem
  rw [h9]
  norm_num

/-- C1 witness: the single detection of the Netflix scenario, named
concretely, with the threshold fact discharged through the theorem. -/
theorem netflix_scenario_witness :
    netflixDetection ∈ EmailSubscriptionParser.parseEmail chronoEmpty 0 netflixEmail ∧
    (0.8:ℚ) ≤ (netflixDetection.confidence : ℚ)/10 :=
  have hm : netflixDetection ∈
      EmailSubscriptionParser.parseEmail chronoEmpty 0 netflixEmail := by decide
  ⟨hm, (netflix_scenario chronoEmpty 0).2.2 netflixDetection hm⟩

/-- C5 counterexample: with subject, bodyText and bodyHtml all
empty/absent, the detect entry point does NOT fail — it returns the
empty detection list normally (the model of `parseEmail` is total: the
source function contains no `throw`). -/
theorem parseEmail_empty_returns_list :
    EmailSubscriptionParser.parseEmail chronoEmpty 0 emptyNetflix = [] := by decide

/-- C5 (amended).  For a message whose subject/bodyText/bodyHtml are
all empty or absent, `parseEmail` returns the empty detection list
without raising anything, whatever the sender; only the LEGACY
`parseSubscriptionEmail` raises (`Error('Invalid email object: must
have subject or body')`) when its subject and body are both empty. -/
theorem empty_message_behaviour :
    (∀ (fr ta : String) (recAt : Int) (chrono : Chrono) (now : Int),
      EmailSubscriptionParser.parseEmail chrono now
        { fromAddr := fr, toAddr := ta, subject := "", bodyText := none,
          bodyHtml := none, receivedAt := recAt } = []) ∧
    (∀ (fr : String) (d : Option Int) (chrono : Chrono) (now : Int),
      EmailParserJS.parseSubscriptionEmail chrono now
        { fromAddr := fr, subject := "", body := "", date := d } =
        Except.error "Invalid email object: must have subject or body") := by
  constructor
  · intro fr ta recAt chrono now
    unfold EmailSubscriptionParser.parseEmail
    dsimp only
    have hc : EmailSubscriptionParser.getEmailContent
        { fromAddr := fr, toAddr := ta, subject := "", bodyText := none,
          bodyHtml := none, receivedAt := recAt } = "  " := rfl
    rw [hc]
    by_cases hs : EmailSubscriptionParser.isSpamEmail ("  ":String).toList fr = true
    · rw [if_pos hs]
    · rw [if_neg (by simpa using hs)]
      have hts : EmailSubscriptionParser.detectTrialSignup chrono now "  " = fun _ => none := by
        funext sn
        unfold EmailSubscriptionParser.detectTrialSignup
        rw [if_neg]
        simp only [Bool.not_eq_true]
        decide
      have htr : EmailSubscriptionParser.detectTrialReminder chrono now "  " = fun _ => none := by
        funext sn
        unfold EmailSubscriptionParser.detectTrialReminder
        rw [if_neg]
        simp only [Bool.not_eq_true]
        decide
      have hbc : EmailSubscriptionParser.detectBillingConfirmation chrono now "  " =
          fun _ => none := by
        funext sn
        unfold EmailSubscriptionParser.detectBillingConfirmation
        rw [if_neg]
        simp only [Bool.not_eq_true]
        decide
      have hss : EmailSubscriptionParser.detectSubscriptionStart chrono now "  " =
          fun _ => none := by
        funext sn
        unfold EmailSubscriptionParser.detectSubscriptionStart
        rw [if_neg]
        simp only [Bool.not_eq_true]
        decide
      have hpc : EmailSubscriptionParser.detectPriceChange chrono now "  " = fun _ => none := by
        funext sn
        unfold EmailSubscriptionParser.detectPriceChange
        rw [if_neg]
        simp only [Bool.not_eq_true]
        decide
      cases hsn : EmailSubscriptionParser.extractServiceName fr ("  ":String).toList with
      | none => rfl
      | some sn =>
        dsimp only
        by_cases h0 : sn = ""
        · rw [if_pos h0]
        · rw [if_neg h0, hts, htr, hbc, hss, hpc]
          rfl
  · intro fr d chrono now
    rfl

/-- C8 counterexample: a billing mail containing `monthly` is emitted
with `billingCycle = some "month"` — the keyword with its first "ly"
stripped — which is NOT a member of the spec's enumeration
`{weekly, monthly, quarterly, semi-annually, annually}`. -/
theorem billingCycle_not_enum_member :
    (EmailSubscriptionParser.parseEmail chronoEmpty 0 cycleEmail).map
      (fun d => d.billingCycle) = [some "month"] ∧
    ¬ ("month" ∈ specBillingCycleEnum) := ⟨by decide, by decide⟩

/-- C8 (amended).  The billing-cycle extractor feeding the emitted
`DetectedSubscription` tests `monthly, quarterly, annually, yearly,
weekly` in that fixed order with first match winning; when a variant
matches the stored value is the keyword with its first "ly" removed
(`month`, `quarter`, `annual`, `year`, `week` — none of which belong to
the spec's enum), and when none matches the field is absent. -/
theorem billingCycle_extraction (content : List Char) :
    (EmailSubscriptionParser.extractBillingCycle content = none ↔
      (containsCI ("monthly".toList) content = false ∧
       containsCI ("quarterly".toList) content = false ∧
       containsCI ("annually".toList) content = false ∧
       containsCI ("yearly".toList) content = false ∧
       containsCI ("weekly".toList) content = false)) ∧
    (containsCI ("monthly".toList) content = true →
      EmailSubscriptionParser.extractBillingCycle content = some "month") ∧
    (containsCI ("monthly".toList) content = false →
     containsCI ("quarterly".toList) content = true →
      EmailSubscriptionParser.extractBillingCycle content = some "quarter") ∧
    (containsCI ("monthly".toList) content = false →
     containsCI ("quarterly".toList) content = false →
     containsCI ("annually".toList) content = true →
      EmailSubscriptionParser.extractBillingCycle content = some "annual") ∧
    (containsCI ("monthly".toList) content = false →
     containsCI ("quarterly".toList) content = false →
     containsCI ("annually".toList) content = false →
     containsCI ("yearly".toList) content = true →
      EmailSubscriptionParser.extractBillingCycle content = some "year") ∧
    (containsCI ("monthly".toList) content = false →
     containsCI ("quarterly".toList) content = false →
     containsCI ("annually".toList) content = false →
     containsCI ("yearly".toList) content = false →
     containsCI ("weekly".toList) content = true →
      EmailSubscriptionParser.extractBillingCycle content = some "week") ∧
    (∀ v, EmailSubscriptionParser.extractBillingCycle content = some v →
      v ∈ ["month", "quarter", "annual", "year", "week"] ∧ v ∉ specBillingCycleEnum) := by
  unfold EmailSubscriptionParser.extractBillingCycle
  refine ⟨?_, ?_, ?_, ?_, ?_, ?_, ?_⟩
  · split_ifs with h1 h2 h3 h4 h5 <;>
      simp_all
  · intro h
    rw [if_pos h]
  · intro h1 h2
    rw [if_neg (ne_true_of_eq_false h1), if_pos h2]
  · intro h1 h2 h3
    rw [if_neg (ne_true_of_eq_false h1), if_neg (ne_true_of_eq_false h2), if_pos h3]
  · intro h1 h2 h3 h4
    rw [if_neg (ne_true_of_eq_false h1), if_neg (ne_true_of_eq_false h2),
      if_neg (ne_true_of_eq_false h3), if_pos h4]
  · intro h1 h2 h3 h4 h5
    rw [if_neg (ne_true_of_eq_false h1), if_neg (ne_true_of_eq_false h2),
      if_neg (ne_true_of_eq_false h3), if_neg (ne_true_of_eq_false h4), if_pos h5]
  · intro v hv
    split_ifs at hv
    all_goals (injection hv with hv2; subst hv2; exact ⟨by decide, by decide⟩)

/-- C8 witness: a content containing `monthly` evaluated through the
characterization. -/
theorem billingCycle_extraction_witness :
    EmailSubscriptionParser.extractBillingCycle ("billed monthly".toList) = some "month" :=
  (billingCycle_extraction ("billed monthly".toList)).2.1 (by decide)

/-- C2 counterexample: the same message parsed at two different clock
instants (one before, one after the date written in the mail) yields
DIFFERENT outputs — the legacy date extractor substitutes `Date.now()`
for the message date it is never given, so `trialEndDate` flips from
the parsed date to absent once the clock passes it. -/
theorem parseEmail_clock_dependent :
    (EmailSubscriptionParser.parseEmail chronoJan 0 netflixEmail).map
      (fun d => d.trialEndDate) = [some 1000] ∧
    (EmailSubscriptionParser.parseEmail chronoJan 2000 netflixEmail).map
      (fun d => d.trialEndDate) = [none] ∧
    EmailSubscriptionParser.parseEmail chronoJan 0 netflixEmail ≠
      EmailSubscriptionParser.parseEmail chronoJan 2000 netflixEmail := by
  refine ⟨by decide, by decide, ?_⟩
  intro h
  have h1 : (EmailSubscriptionParser.parseEmail chronoJan 0 netflixEmail).map
      (fun d => d.trialEndDate) = [some 1000] := by decide
  rw [h] at h1
  have h2 : (EmailSubscriptionParser.parseEmail chronoJan 2000 netflixEmail).map
      (fun d => d.trialEndDate) = [none] := by decide
  rw [h2] at h1
  simp at h1

/-- C2 helper: erasing `trialEndDate` from a freshly built detection
gives the same record at any two clock instants — every other field is
computed without the clock. -/
theorem mkDetection_erase_clock (chrono : Chrono) (n1 n2 : Int) (content : String)
    (sn : String) (t : EmailSubscriptionParser.DetectionType) :
    eraseTrialEnd (EmailSubscriptionParser.mkDetection chrono n1 content sn t) =
    eraseTrialEnd (EmailSubscriptionParser.mkDetection chrono n2 content sn t) := rfl

/-- C2 helper: the optional-detection shape of the five `detect*`
helpers, with `trialEndDate` erased, does not depend on the clock. -/
theorem detectIf_erase_clock (b : Bool) (chrono : Chrono) (n1 n2 : Int) (content : String)
    (sn : String) (t : EmailSubscriptionParser.DetectionType) :
    ((if b then some (EmailSubscriptionParser.mkDetection chrono n1 content sn t)
      else none).toList).map eraseTrialEnd =
    ((if b then some (EmailSubscriptionParser.mkDetection chrono n2 content sn t)
      else none).toList).map eraseTrialEnd := by
  cases b
  · rfl
  · simp only [if_true, Option.toList_some, List.map]
    rw [mkDetection_erase_clock chrono n1 n2 content sn t]

/-- C2 (amended).  `parseEmail` is a deterministic function of the
message and the clock instant, and the clock reaches only the
`trialEndDate` field: erasing that one field makes the output
identical at any two wall-clock times.  (The claim's full
clock-independence fails; see the counterexample.) -/
theorem parseEmail_deterministic_mod_trialEnd (chrono : Chrono)
    (e : EmailSubscriptionParser.EmailData) (n1 n2 : Int) :
    (EmailSubscriptionParser.parseEmail chrono n1 e).map eraseTrialEnd =
    (EmailSubscriptionParser.parseEmail chrono n2 e).map eraseTrialEnd := by
  unfold EmailSubscriptionParser.parseEmail
  dsimp only
  by_cases hs : EmailSubscriptionParser.isSpamEmail
      (EmailSubscriptionParser.getEmailContent e).toList e.fromAddr = true
  · rw [if_pos hs, if_pos hs]
  · rw [if_neg hs, if_neg hs]
    cases hsn : EmailSubscriptionParser.extractServiceName e.fromAddr
        (EmailSubscriptionParser.getEmailContent e).toList with
    | none => rfl
    | some sn =>
      dsimp only
      by_cases h0 : sn = ""
      · rw [if_pos h0, if_pos h0]
      · rw [if_neg h0, if_neg h0]
        unfold EmailSubscriptionParser.detectTrialSignup
          EmailSubscriptionParser.detectTrialReminder
          EmailSubscriptionParser.detectBillingConfirmation
          EmailSubscriptionParser.detectSubscriptionStart
          EmailSubscriptionParser.detectPriceChange
        simp only [List.map_append]
        rw [detectIf_erase_clock _ chrono n1 n2, detectIf_erase_clock _ chrono n1 n2,
          detectIf_erase_clock _ chrono n1 n2, detectIf_erase_clock _ chrono n1 n2,
          detectIf_erase_clock _ chrono n1 n2]

/-- C7 counterexample: when the message contains two future dates with
the LATER one earlier in the text and no trial window, the extractor
returns the first parse in document order (the later instant, 2000) —
NOT the earliest future date (1000) as claimed. -/
theorem trialEndDate_not_earliest :
    EmailParserJS.extractTrialEndDate chronoTwo 0 twoDatesEmail = some 2000 ∧
    EmailParserJS.extractDates chronoTwo
      (twoDatesEmail.subject ++ " " ++ twoDatesEmail.body) = [2000, 1000] ∧
    twoDatesEmail.date = some 0 ∧ ((0:Int) < 1000) ∧ ((1000:Int) < 2000) := by
  refine ⟨by decide, by decide, rfl, by decide, by decide⟩

/-- C7 (amended).  The date extractor applies its two strategies in
priority order: (a) when the trial-keyword window matches and the
parser finds dates in it, the first such date is returned; (b)
otherwise the result is the FIRST (in the parser's document order, not
the earliest) parsed date strictly later than `email.date`
(`Date.now()` when absent), and absent when no such date exists —
in particular absent when the parser returns no parses at all. -/
theorem trialEndDate_strategy (chrono : Chrono) (now : Int)
    (email : EmailParserJS.LegacyEmail) :
    (∀ w, EmailParserJS.firstTrialWindow (email.subject ++ " " ++ email.body).toList = some w →
       EmailParserJS.extractDates chrono (String.mk w) ≠ [] →
       EmailParserJS.extractTrialEndDate chrono now email =
         (EmailParserJS.extractDates chrono (String.mk w)).head?) ∧
    ((∀ w, EmailParserJS.firstTrialWindow (email.subject ++ " " ++ email.body).toList = some w →
       EmailParserJS.extractDates chrono (String.mk w) = []) →
       EmailParserJS.extractTrialEndDate chrono now email =
         ((EmailParserJS.extractDates chrono (email.subject ++ " " ++ email.body)).filter
           (fun d => decide (email.date.getD now < d))).head?) := by
  constructor
  · intro w hw hne
    unfold EmailParserJS.extractTrialEndDate
    dsimp only
    rw [hw]
    dsimp only
    cases hds : EmailParserJS.extractDates chrono (String.mk w) with
    | nil => exact absurd hds hne
    | cons d ds => rfl
  · intro hnone
    unfold EmailParserJS.extractTrialEndDate
    dsimp only
    cases hw : EmailParserJS.firstTrialWindow (email.subject ++ " " ++ email.body).toList with
    | none =>
      dsimp only
      cases hfl : (EmailParserJS.extractDates chrono
          (email.subject ++ " " ++ email.body)).filter
            (fun d => decide (email.date.getD now < d)) with
      | nil => rfl
      | cons d ds => rfl
    | some w =>
      dsimp only
      rw [hnone w hw]
      dsimp only
      cases hfl : (EmailParserJS.extractDates chrono
          (email.subject ++ " " ++ email.body)).filter
            (fun d => decide (email.date.getD now < d)) with
      | nil => rfl
      | cons d ds => rfl

/-- C7 witness: strategy (a) evaluated on a mail whose trial window
contains a parsable date. -/
theorem trialEndDate_strategy_witness :
    EmailParserJS.extractTrialEndDate chronoMarch 0 trialWinEmail =
      (EmailParserJS.extractDates chronoMarch
        (String.mk ((EmailParserJS.firstTrialWindow
          (trialWinEmail.subject ++ " " ++ trialWinEmail.body).toList).getD []))).head? :=
  have hw : EmailParserJS.firstTrialWindow
      (trialWinEmail.subject ++ " " ++ trialWinEmail.body).toList =
      some ((EmailParserJS.firstTrialWindow
        (trialWinEmail.subject ++ " " ++ trialWinEmail.body).toList).getD []) := by decide
  have hne : EmailParserJS.extractDates chronoMarch
      (String.mk ((EmailParserJS.firstTrialWindow
        (trialWinEmail.subject ++ " " ++ trialWinEmail.body).toList).getD [])) ≠ [] := by decide
  (trialEndDate_strategy chronoMarch 0 trialWinEmail).1 _ hw hne

/-- Invariant of the `findMode` iteration: after processing the whole
list the recorded maximum is the maximal frequency and the recorded
mode attains it. -/
theorem findModeGo_spec (rest : List Nat) : ∀ (seen : List Nat) (mf : Nat) (mo : Option Nat),
    (∀ v, seen.count v ≤ mf) →
    (mf = 0 ∨ ∃ m, mo = some m ∧ seen.count m = mf) →
    (∀ v, (seen ++ rest).count v ≤ (EmailParserJS.findModeGo seen rest mf mo).1) ∧
    ((EmailParserJS.findModeGo seen rest mf mo).1 = 0 ∨
      ∃ m, (EmailParserJS.findModeGo seen rest mf mo).2 = some m ∧
        (seen ++ rest).count m = (EmailParserJS.findModeGo seen rest mf mo).1) := by
  induction rest with
  | nil =>
    intro seen mf mo h1 h2
    constructor
    · intro v
      simpa [EmailParserJS.findModeGo] using h1 v
    · simpa [EmailParserJS.findModeGo] using h2
  | cons n rest ih =>
    intro seen mf mo h1 h2
    have hsplit : seen ++ n :: rest = (seen ++ [n]) ++ rest := by simp
    rw [hsplit]
    show (∀ v, ((seen ++ [n]) ++ rest).count v ≤
        (EmailParserJS.findModeGo seen (n :: rest) mf mo).1) ∧ _
    unfold EmailParserJS.findModeGo
    dsimp only
    by_cases hlt : mf < seen.count n + 1
    · rw [if_pos hlt]
      apply ih
      · intro v
        by_cases hv : v = n
        · subst hv
          simp [List.count_append]
        · have := h1 v
          have hc : (seen ++ [n]).count v = seen.count v := by
            simp [List.count_append, List.count_singleton', hv]
          omega
      · right
        exact ⟨n, rfl, by simp [List.count_append]⟩
    · rw [if_neg hlt]
      apply ih
      · intro v
        by_cases hv : v = n
        · subst hv
          have := h1 v
          simp only [List.count_append, List.count_singleton'] at *
          simp_all
        · have := h1 v
          have hc : (seen ++ [n]).count v = seen.count v := by
            simp [List.count_append, List.count_singleton', hv]
          omega
      · rcases h2 with h0 | ⟨m, hmo, hcm⟩
        · omega
        · right
          refine ⟨m, hmo, ?_⟩
          have hmn : m ≠ n := by
            rintro rfl
            omega
          simp [List.count_append, List.count_singleton', hmn, hcm]

/-- When `findMode` yields a value, it occurs more than once and is a
value of maximal frequency. -/
theorem findMode_some_spec (l : List Nat) (m : Nat)
    (h : EmailParserJS.findMode l = some m) :
    1 < l.count m ∧ ∀ v, l.count v ≤ l.count m := by
  have hs := findModeGo_spec l [] 0 none (by simp) (Or.inl rfl)
  simp only [List.nil_append] at hs
  obtain ⟨hA, hB⟩ := hs
  unfold EmailParserJS.findMode at h
  dsimp only at h
  by_cases hgt : 1 < (EmailParserJS.findModeGo [] l 0 none).1
  · rw [if_pos hgt] at h
    rcases hB with h0 | ⟨m', hm', hc'⟩
    · omega
    · rw [hm'] at h
      injection h with h
      subst h
      constructor
      · omega
      · intro v
        have := hA v
        omega
  · rw [if_neg hgt] at h
    exact absurd h (by simp)

/-- When `findMode` yields nothing, every value occurs at most once. -/
theorem findMode_none_spec (l : List Nat)
    (h : EmailParserJS.findMode l = none) : ∀ v, l.count v ≤ 1 := by
  have hs := findModeGo_spec l [] 0 none (by simp) (Or.inl rfl)
  simp only [List.nil_append] at hs
  obtain ⟨hA, hB⟩ := hs
  unfold EmailParserJS.findMode at h
  dsimp only at h
  by_cases hgt : 1 < (EmailParserJS.findModeGo [] l 0 none).1
  · rw [if_pos hgt] at h
    rcases hB with h0 | ⟨m', hm', hc'⟩
    · omega
    · rw [hm'] at h
      exact absurd h (by simp)
  · intro v
    have := hA v
    omega

/-- The fuel of `dedupFirstGo` is irrelevant once it covers the list
length. -/
theorem dedupFirstGo_fuel : ∀ (n : Nat) (l : List Nat), l.length ≤ n →
    ∀ m, l.length ≤ m →
    EmailParserJS.dedupFirstGo n l = EmailParserJS.dedupFirstGo m l := by
  intro n
  induction n with
  | zero =>
    intro l hl m hm
    cases l with
    | nil => cases m <;> rfl
    | cons a l => simp at hl
  | succ n ih =>
    intro l hl m hm
    cases l with
    | nil => cases m <;> rfl
    | cons a l =>
      cases m with
      | zero => simp at hm
      | succ m =>
        simp only [EmailParserJS.dedupFirstGo]
        congr 1
        have hfl := List.length_filter_le (fun b => !(b == a)) l
        simp only [List.length_cons] at hl hm
        exact ih _ (by omega) _ (by omega)

/-- The recursion equation of `dedupFirst`. -/
theorem dedupFirst_cons (a : Nat) (l : List Nat) :
    EmailParserJS.dedupFirst (a :: l) =
    a :: EmailParserJS.dedupFirst (l.filter (fun b => !(b == a))) := by
  unfold EmailParserJS.dedupFirst
  simp only [List.length_cons, EmailParserJS.dedupFirstGo]
  congr 1
  have hfl := List.length_filter_le (fun b => !(b == a)) l
  exact dedupFirstGo_fuel _ _ (by omega) _ (by omega)

/-- Membership is preserved by the `Set`-style deduplication. -/
theorem mem_dedupFirst : ∀ (l : List Nat) (x : Nat),
    x ∈ EmailParserJS.dedupFirst l ↔ x ∈ l := by
  have main : ∀ (n : Nat) (l : List Nat), l.length ≤ n → ∀ x,
      (x ∈ EmailParserJS.dedupFirst l ↔ x ∈ l) := by
    intro n
    induction n with
    | zero =>
      intro l hl x
      cases l with
      | nil => simp [EmailParserJS.dedupFirst, EmailParserJS.dedupFirstGo]
      | cons a l => simp at hl
    | succ n ih =>
      intro l hl x
      cases l with
      | nil => simp [EmailParserJS.dedupFirst, EmailParserJS.dedupFirstGo]
      | cons a l =>
        have hlen : (l.filter (fun b => !(b == a))).length ≤ n := by
          have := List.length_filter_le (fun b => !(b == a)) l
          simp only [List.length_cons] at hl
          omega
        rw [dedupFirst_cons]
        simp only [List.mem_cons, ih _ hlen x, List.mem_filter]
        by_cases hxa : x = a
        · simp [hxa]
        · simp [hxa]
  intro l x
  exact main l.length l (le_refl _) x

/-- Deduplication is the identity on duplicate-free lists. -/
theorem dedupFirst_eq_self : ∀ (l : List Nat), l.Nodup →
    EmailParserJS.dedupFirst l = l := by
  intro l
  induction l with
  | nil => intro _; rfl
  | cons a l ih =>
    intro h
    have ha : a ∉ l := (List.nodup_cons.mp h).1
    have hf : l.filter (fun b => !(b == a)) = l := by
      rw [List.filter_eq_self]
      intro b hb
      simp only [Bool.not_eq_true', beq_eq_false_iff_ne, ne_eq]
      rintro rfl
      exact ha hb
    rw [dedupFirst_cons, hf, ih (List.nodup_cons.mp h).2]

/-- Models `dedupFirst` of a nonempty list is nonempty. -/
theorem dedupFirst_ne_nil (a : Nat) (l : List Nat) :
    EmailParserJS.dedupFirst (a :: l) ≠ [] := by
  rw [dedupFirst_cons]
  exact List.cons_ne_nil _ _

/-- Full characterization of the post-collection selection logic of
`extractAmount`. -/
theorem selectAmount_spec (amounts : List Nat) :
    (amounts = [] → EmailParserJS.selectAmount amounts = none) ∧
    (∀ a, EmailParserJS.dedupFirst (List.insertionSort (· ≤ ·) amounts) = [a] →
       EmailParserJS.selectAmount amounts = some a ∧ ∀ x ∈ amounts, x = a) ∧
    (2 ≤ (EmailParserJS.dedupFirst (List.insertionSort (· ≤ ·) amounts)).length →
      ((∃ v, 1 < amounts.count v) →
        ∃ m, EmailParserJS.selectAmount amounts = some m ∧ 1 < amounts.count m ∧
          ∀ v, amounts.count v ≤ amounts.count m) ∧
      ((∀ v, amounts.count v ≤ 1) →
        EmailParserJS.selectAmount amounts =
          some ((EmailParserJS.dedupFirst (List.insertionSort (· ≤ ·) amounts)).getD
            ((EmailParserJS.dedupFirst (List.insertionSort (· ≤ ·) amounts)).length / 2) 0))) := by
  have hperm := List.perm_insertionSort (· ≤ ·) amounts
  have hcount : ∀ v, (List.insertionSort (· ≤ ·) amounts).count v = amounts.count v :=
    fun v => hperm.count_eq v
  refine ⟨?_, ?_, ?_⟩
  · rintro rfl
    rfl
  · intro a hded
    have hne : amounts ≠ [] := by
      rintro rfl
      rw [show List.insertionSort (· ≤ ·) ([] : List Nat) = [] from rfl] at hded
      rw [show EmailParserJS.dedupFirst [] = [] from rfl] at hded
      exact absurd hded (by simp)
    constructor
    · unfold EmailParserJS.selectAmount
      rw [if_neg (by simpa using hne)]
      dsimp only
      rw [hded]
      rfl
    · intro x hx
      have hx2 : x ∈ List.insertionSort (· ≤ ·) amounts := by
        rw [hperm.mem_iff]
        exact hx
      have hx3 : x ∈ EmailParserJS.dedupFirst (List.insertionSort (· ≤ ·) amounts) :=
        (mem_dedupFirst _ x).mpr hx2
      rw [hded] at hx3
      simpa using hx3
  · intro hlen
    have hne : amounts ≠ [] := by
      rintro rfl
      rw [show List.insertionSort (· ≤ ·) ([] : List Nat) = [] from rfl] at hlen
      rw [show EmailParserJS.dedupFirst [] = [] from rfl] at hlen
      simp at hlen
    constructor
    · intro ⟨v, hv⟩
      cases hm : EmailParserJS.findMode (List.insertionSort (· ≤ ·) amounts) with
      | none =>
        have := findMode_none_spec _ hm v
        rw [hcount v] at this
        omega
      | some m =>
        obtain ⟨hm1, hm2⟩ := findMode_some_spec _ m hm
        refine ⟨m, ?_, ?_, ?_⟩
        · unfold EmailParserJS.selectAmount
          rw [if_neg (by simpa using hne)]
          dsimp only
          rw [if_neg (by omega), hm]
        · rw [hcount m] at hm1
          exact hm1
        · intro u
          have := hm2 u
          rw [hcount u, hcount m] at this
          exact this
    · intro hall
      have hnodup : (List.insertionSort (· ≤ ·) amounts).Nodup := by
        rw [List.nodup_iff_count_le_one]
        intro v
        rw [hcount v]
        exact hall v
      have hm : EmailParserJS.findMode (List.insertionSort (· ≤ ·) amounts) = none := by
        cases hm : EmailParserJS.findMode (List.insertionSort (· ≤ ·) amounts) with
        | none => rfl
        | some m =>
          obtain ⟨hm1, _⟩ := findMode_some_spec _ m hm
          rw [hcount m] at hm1
          have := hall m
          omega
      have hded : EmailParserJS.dedupFirst (List.insertionSort (· ≤ ·) amounts) =
          List.insertionSort (· ≤ ·) amounts := dedupFirst_eq_self _ hnodup
      unfold EmailParserJS.selectAmount
      rw [if_neg (by simpa using hne)]
      dsimp only
      rw [if_neg (by omega), hm, hded]

/-- C6.  The amount extractor's selection rule, for every legacy email:
no in-range amount → absent; exactly one distinct amount → that amount;
two or more distinct amounts → the most frequent value when one occurs
more than once, else the middle element (index ⌊n/2⌋, the statistical
median for odd n) of the ascending list of distinct amounts. -/
theorem amount_selection (email : EmailParserJS.LegacyEmail) :
    (EmailParserJS.extractAmountList ((email.subject ++ " " ++ email.body).toList) = [] →
      EmailParserJS.extractAmount email = none) ∧
    (∀ a, EmailParserJS.dedupFirst (List.insertionSort (· ≤ ·)
        (EmailParserJS.extractAmountList ((email.subject ++ " " ++ email.body).toList))) = [a] →
      EmailParserJS.extractAmount email = some a ∧
      ∀ x ∈ EmailParserJS.extractAmountList ((email.subject ++ " " ++ email.body).toList), x = a) ∧
    (2 ≤ (EmailParserJS.dedupFirst (List.insertionSort (· ≤ ·)
        (EmailParserJS.extractAmountList ((email.subject ++ " " ++ email.body).toList)))).length →
      ((∃ v, 1 < (EmailParserJS.extractAmountList
          ((email.subject ++ " " ++ email.body).toList)).count v) →
        ∃ m, EmailParserJS.extractAmount email = some m ∧
          1 < (EmailParserJS.extractAmountList
            ((email.subject ++ " " ++ email.body).toList)).count m ∧
          ∀ v, (EmailParserJS.extractAmountList
            ((email.subject ++ " " ++ email.body).toList)).count v ≤
            (EmailParserJS.extractAmountList
              ((email.subject ++ " " ++ email.body).toList)).count m) ∧
      ((∀ v, (EmailParserJS.extractAmountList
          ((email.subject ++ " " ++ email.body).toList)).count v ≤ 1) →
        EmailParserJS.extractAmount email =
          some ((EmailParserJS.dedupFirst (List.insertionSort (· ≤ ·)
            (EmailParserJS.extractAmountList
              ((email.subject ++ " " ++ email.body).toList)))).getD
            ((EmailParserJS.dedupFirst (List.insertionSort (· ≤ ·)
              (EmailParserJS.extractAmountList
                ((email.subject ++ " " ++ email.body).toList)))).length / 2) 0))) :=
  selectAmount_spec (EmailParserJS.extractAmountList ((email.subject ++ " " ++ email.body).toList))

/-- C6 witness: the mode case, on a mail quoting $5 twice and $3 once
(amounts in cents). -/
theorem amount_selection_witness :
    (2 ≤ (EmailParserJS.dedupFirst (List.insertionSort (· ≤ ·)
        (EmailParserJS.extractAmountList
          ((modeEmail.subject ++ " " ++ modeEmail.body).toList)))).length) ∧
    ∃ m, EmailParserJS.extractAmount modeEmail = some m ∧
      1 < (EmailParserJS.extractAmountList
        ((modeEmail.subject ++ " " ++ modeEmail.body).toList)).count m ∧
      ∀ v, (EmailParserJS.extractAmountList
          ((modeEmail.subject ++ " " ++ modeEmail.body).toList)).count v ≤
        (EmailParserJS.extractAmountList
          ((modeEmail.subject ++ " " ++ modeEmail.body).toList)).count m :=
  have h2 : 2 ≤ (EmailParserJS.dedupFirst (List.insertionSort (· ≤ ·)
      (EmailParserJS.extractAmountList
        ((modeEmail.subject ++ " " ++ modeEmail.body).toList)))).length := by decide
  have hex : ∃ v, 1 < (EmailParserJS.extractAmountList
      ((modeEmail.subject ++ " " ++ modeEmail.body).toList)).count v :=
    ⟨500, by decide⟩
  ⟨h2, ((amount_selection modeEmail).2.2 h2).1 hex⟩
